import Mathlib

/-!
kodoblob: the Qiniu Kodo driver for the Go CDK blob abstraction

A shallow embedding of `kodoblob/kodoblob.go` and theorems about it.

Conventions of the embedding:

* a Go `error` is an `Option Error` (`none` is `nil`);
* a Go `int64` is an `Int` inside `[-2^63, 2^63)`, arithmetic is wrapped by `wrap64`;
* a Go `string` is a `String` (valid Unicode; its bytes are its UTF-8 encoding), a `[]byte`
  is a `List Nat`;
* a Go `map` is an association list with at most one entry per key; `range` visits the
  entries in list order, and every order is covered by quantifying over the list;
* a call that can end in a runtime panic returns an `Outcome`;
* the collaborators outside the repository (the Qiniu SDK, `net/http`, `net/url`, the clock)
  are parameters;
* the goroutine started by `writer.Write` runs interleaved with the caller, one Go statement
  per step.
-/

namespace kodoblob

/-! ## Integers -/

/-- Wraps an integer into the range of `int64`, as Go arithmetic on `int64` does. -/
def wrap64 (x : Int) : Int := (x + 2 ^ 63) % 2 ^ 64 - 2 ^ 63

/-- The verb `%d` of `fmt.Sprintf`: decimal digits, with a leading minus sign when negative. -/
def fmtD (i : Int) : String :=
  if i < 0 then "-" ++ Nat.repr i.natAbs else Nat.repr i.natAbs

/-! ## Errors -/

/-- The exported type `ErrStatusCode`: an unexpected HTTP status code. -/
structure ErrStatusCode where
  code : Int
  deriving DecidableEq, Repr

/-- The method `ErrStatusCode.Error`:
`fmt.Sprintf("kodoblob: unexpected status code %d", err.code)`. -/
def ErrStatusCode.Error (err : ErrStatusCode) : String :=
  "kodoblob: unexpected status code " ++ fmtD err.code

/-- The error values the package produces or passes on. -/
inductive Error where
  | ErrNoAccessKey
  | ErrNoSecretKey
  | ErrNoDownloadDomain
  | ErrNotSupportedSignedPutUrl
  | ErrNotSupportedSignedDeleteUrl
  /-- A value of the type `ErrStatusCode`. -/
  | statusCode (e : ErrStatusCode)
  /-- The value of `fmt.Errorf("unsupported Method %q", m)`. -/
  | unsupportedMethod (m : String)
  /-- The value `io.ErrClosedPipe`. -/
  | ErrClosedPipe
  /-- The value `io.EOF`. -/
  | EOF
  /-- An error produced by a collaborator (SDK, HTTP transport, URL parser). -/
  | external (msg : String)
  deriving DecidableEq, Repr

/-! ## Go primitives -/

/-- The conversion `[]byte(s)`: the UTF-8 bytes of the string. -/
def bytesOf (s : String) : List Nat :=
  (s.data.flatMap String.utf8EncodeChar).map UInt8.toNat

/-- Lexicographic comparison of two byte sequences; a proper prefix is smaller. -/
def bytesLess : List Nat → List Nat → Bool
  | _, [] => false
  | [], _ :: _ => true
  | a :: as, b :: bs => decide (a < b) || (a == b && bytesLess as bs)

/-- The comparison `a < b` of two Go strings: lexicographic on their bytes. -/
def stringLess (a b : String) : Bool := bytesLess (bytesOf a) (bytesOf b)

/-- The function `strings.HasPrefix`. -/
def HasPrefix (s p : String) : Bool := p.data.isPrefixOf s.data

/-- The function `strings.TrimPrefix`. -/
def TrimPrefix (s p : String) : String :=
  if HasPrefix s p then ⟨s.data.drop p.data.length⟩ else s

/-- The function `unicode.ToLower` on one rune: `A`..`Z` are shifted to `a`..`z`, the other
ASCII runes are kept, and a rune outside ASCII is mapped by the Unicode case tables, which are
the parameter `table`. -/
def runeToLower (table : Char → Char) (c : Char) : Char :=
  if c.toNat < 128 then (if 65 ≤ c.toNat ∧ c.toNat ≤ 90 then Char.ofNat (c.toNat + 32) else c)
  else table c

/-- The function `strings.ToLower`. -/
def ToLower (table : Char → Char) (s : String) : String := ⟨s.data.map (runeToLower table)⟩

/-- A Go map with string keys: an association list with at most one entry per key. -/
abbrev GoMap (β : Type) := List (String × β)

/-- The map read `m[k]` with its presence flag. -/
def GoMap.get? {β : Type} : GoMap β → String → Option β
  | [], _ => none
  | (k1, v1) :: m, k => if k1 = k then some v1 else GoMap.get? m k

/-- The map write `m[k] = v`: replaces the entry of `k` or adds one. -/
def GoMap.set {β : Type} : GoMap β → String → β → GoMap β
  | [], k, v => [(k, v)]
  | (k1, v1) :: m, k, v => if k1 = k then (k, v) :: m else (k1, v1) :: GoMap.set m k v

/-- The method `http.Header.Get` for a key already in canonical form (every key the package
asks for is): the first value stored under the key, or the empty string. -/
def HeaderGet (h : GoMap (List String)) (key : String) : String :=
  match GoMap.get? h key with
  | some (v :: _) => v
  | _ => ""

/-- The method `http.Header.Set` for a key already in canonical form. -/
def HeaderSet (h : GoMap (List String)) (key value : String) : GoMap (List String) :=
  GoMap.set h key [value]

/-! ## Metadata on the wire -/

/-- The function `convertMetadataToParams`: every key gets the prefix `x-qn-meta-`. -/
def convertMetadataToParams (metadata : GoMap String) : GoMap String :=
  metadata.foldl (fun params kv => GoMap.set params ("x-qn-meta-" ++ kv.1) kv.2) []

/-! ## The bucket and its collaborators -/

/-- The type `auth.Credentials`. -/
structure Credentials where
  AccessKey : String
  SecretKey : List Nat
  deriving DecidableEq, Repr

/-- A parsed `url.URL`, represented by the text its method `String` returns. -/
structure URL where
  text : String
  deriving DecidableEq, Repr

/-- The method `url.URL.String`. -/
def URL.String (u : URL) : String := u.text

/-- The type `bucket`: the fields the operations read.  The SDK managers it also holds are
collaborators and live in `Env`. -/
structure bucket where
  name : String
  downloadDomains : List URL
  willSignDownloadUrl : Bool
  preferHttps : Bool
  credentials : Credentials
  deriving DecidableEq, Repr

/-- The type `storage.Region`, with the fields the package reads or writes; the zero value of
a field is its default. -/
structure Region where
  IoSrcHost : String
  SrcUpHosts : List String := []
  CdnUpHosts : List String := []
  RsHost : String := ""
  RsfHost : String := ""
  ApiHost : String := ""
  deriving DecidableEq, Repr

/-- The type `http.Request`: method, URL and header. -/
structure Request where
  Method : String
  URL : String
  Header : GoMap (List String)
  deriving DecidableEq, Repr

/-- An `io.ReadCloser` used as a response body: either `http.NoBody`, or a stream with the
bytes still to be read and the error its `Close` reports. -/
inductive ReadCloser where
  | NoBody
  | stream (content : List Nat) (closeErr : Option Error)
  deriving DecidableEq, Repr

/-- The method `Close` of a body. `http.NoBody` never fails. -/
def ReadCloser.Close : ReadCloser → Option Error
  | .NoBody => none
  | .stream _ closeErr => closeErr

/-- The method `Read` of a body into a buffer of `n` bytes: the bytes read, the error, and the
body afterwards.  `http.NoBody` always returns `(0, io.EOF)`. -/
def ReadCloser.Read : ReadCloser → Nat → (List Nat × Option Error) × ReadCloser
  | .NoBody, _ => (([], some .EOF), .NoBody)
  | .stream content closeErr, n =>
    if content.isEmpty then (([], some .EOF), .stream content closeErr)
    else ((content.take n, none), .stream (content.drop n) closeErr)

/-- The type `http.Response`: status code, header, content length and body. -/
structure Response where
  StatusCode : Int
  Header : GoMap (List String)
  ContentLength : Int
  Body : ReadCloser
  deriving DecidableEq, Repr

/-- The type `storage.ListItem`, with the fields the package reads. -/
structure ListItem where
  Key : String
  PutTime : Int
  Fsize : Int
  Md5 : String
  deriving DecidableEq, Repr

/-- The type `storage.ListFilesRet`. -/
structure ListFilesRet where
  Marker : String
  Items : List ListItem
  CommonPrefixes : List String
  deriving DecidableEq, Repr

/-- The options `storage.ListInputOptionsPrefix`, `...Delimiter`, `...Marker`, `...Limit`. -/
inductive ListInputOption where
  | Prefix (s : String)
  | Delimiter (s : String)
  | Marker (s : String)
  | Limit (n : Int)
  deriving DecidableEq, Repr

/-- The collaborators of the package and the values it takes from its runtime. -/
structure Env where
  /-- The call `storage.GetRegionWithOptions(accessKey, bucketName, UCApiOptions{UseHttps})`. -/
  GetRegionWithOptions : String → String → Bool → Except Error Region
  /-- The function `url.Parse`. -/
  urlParse : String → Except Error URL
  /-- The function `storage.MakePrivateURLv2(credentials, domain, key, deadline)`. -/
  MakePrivateURLv2 : Credentials → String → String → Int → String
  /-- The function `storage.MakePublicURLv2(domain, key)`. -/
  MakePublicURLv2 : String → String → String
  /-- The clock `time.Now()`, in nanoseconds since the Unix epoch. -/
  now : Int
  /-- The error of `http.NewRequestWithContext(ctx, method, url, http.NoBody)`, if any. -/
  newRequestErr : String → String → Option Error
  /-- The call `http.DefaultClient.Do`. -/
  Do : Request → Except Error Response
  /-- The package variable `userAgent`, built from the Go runtime. -/
  userAgent : String
  /-- The call `time.Parse(time.RFC1123, s)`: the instant, or `none` when it fails. -/
  parseRFC1123 : String → Option Int
  /-- The Unicode case tables behind `strings.ToLower`, outside ASCII. -/
  unicodeLower : Char → Char
  /-- The call `bucketManager.ListFilesWithContext(ctx, bucket, options...)`: the listing and
  whether more results exist. -/
  ListFilesWithContext : String → List ListInputOption → Except Error (ListFilesRet × Bool)

/-- What an operation did to its collaborators, in order. -/
inductive Event where
  /-- A call of `storage.GetRegionWithOptions`. -/
  | getRegion (accessKey name : String) (useHttps : Bool)
  /-- A request handed to `http.DefaultClient.Do`. -/
  | httpDo (req : Request)
  /-- A call of `Close` on the body of the response. -/
  | bodyClose
  /-- A call of `bucketManager.ListFilesWithContext`. -/
  | listFiles (name : String) (options : List ListInputOption)
  deriving DecidableEq, Repr

/-! ## Download URLs -/

/-- The last statement of `signDownloadUrl`: the private URL valid until `now + expiry` (in
seconds since the epoch) when `signUrl`, the public URL otherwise. -/
def makeDownloadUrl (env : Env) (b : bucket) (key : String) (expiry : Int) (signUrl : Bool)
    (downloadUrl : URL) : String :=
  if signUrl then
    env.MakePrivateURLv2 b.credentials downloadUrl.String key ((env.now + expiry) / 1000000000)
  else
    env.MakePublicURLv2 downloadUrl.String key

/-- The method `bucket.signDownloadUrl`; `expiry` is a `time.Duration`, in nanoseconds. -/
def bucket.signDownloadUrl (env : Env) (b : bucket) (key : String) (expiry : Int) :
    Except Error String × List Event :=
  match b.downloadDomains with
  | downloadUrl :: _ => (.ok (makeDownloadUrl env b key expiry b.willSignDownloadUrl downloadUrl), [])
  | [] =>
    let ev := [Event.getRegion b.credentials.AccessKey b.name b.preferHttps]
    match env.GetRegionWithOptions b.credentials.AccessKey b.name b.preferHttps with
    | .error err => (.error err, ev)
    | .ok region =>
      if region.IoSrcHost = "" then (.error .ErrNoDownloadDomain, ev)
      else
        let ioSrcHost :=
          if !HasPrefix region.IoSrcHost "http://" && !HasPrefix region.IoSrcHost "https://" then
            (if b.preferHttps then "https://" ++ region.IoSrcHost
             else "http://" ++ region.IoSrcHost)
          else region.IoSrcHost
        match env.urlParse ioSrcHost with
        | .error err => (.error err, ev)
        | .ok downloadUrl => (.ok (makeDownloadUrl env b key expiry true downloadUrl), ev)

/-- The method `bucket.createDownloadRequest`. -/
def bucket.createDownloadRequest (env : Env) (b : bucket) (method key byteRange : String)
    (expiry : Int) : Except Error Request × List Event :=
  match bucket.signDownloadUrl env b key expiry with
  | (.error err, ev) => (.error err, ev)
  | (.ok downloadUrl, ev) =>
    match env.newRequestErr method downloadUrl with
    | some err => (.error err, ev)
    | none =>
      let header := HeaderSet [] "User-Agent" env.userAgent
      let header := if byteRange ≠ "" then HeaderSet header "Range" byteRange else header
      (.ok { Method := method, URL := downloadUrl, Header := header }, ev)

/-! ## Attributes -/

/-- The type `driver.Attributes`.  `ModTime` is `none` for the zero `time.Time`. -/
structure driver.Attributes where
  CacheControl : String
  ContentDisposition : String
  ContentEncoding : String
  ContentLanguage : String
  ContentType : String
  ETag : String
  MD5 : List Nat
  Size : Int
  Metadata : GoMap String
  ModTime : Option Int
  deriving DecidableEq, Repr

/-- The loop `for k, v := range headers` of `bucket.attributes`: every header with a value
whose lower-cased name starts with `x-qn-meta-` is stored under the rest of that name. -/
def extractMetadata (table : Char → Char) (headers : GoMap (List String)) : GoMap String :=
  headers.foldl (fun metadata kv =>
    let k := ToLower table kv.1
    match kv.2 with
    | v0 :: _ =>
      if HasPrefix k "x-qn-meta-" then GoMap.set metadata (TrimPrefix k "x-qn-meta-") v0
      else metadata
    | [] => metadata) []

/-- The method `bucket.attributes`; it never fails. -/
def bucket.attributes (env : Env) (response : Response) : Except Error driver.Attributes :=
  let headers := response.Header
  let lastModified := HeaderGet headers "Last-Modified"
  .ok { CacheControl := HeaderGet headers "Cache-Control"
        ContentDisposition := HeaderGet headers "Content-Disposition"
        ContentEncoding := HeaderGet headers "Content-Encoding"
        ContentLanguage := HeaderGet headers "Content-Language"
        ContentType := HeaderGet headers "Content-Type"
        ETag := HeaderGet headers "Etag"
        MD5 := bytesOf (HeaderGet headers "Content-Md5")
        Size := response.ContentLength
        Metadata := extractMetadata env.unicodeLower headers
        ModTime := if lastModified ≠ "" then env.parseRFC1123 lastModified else none }

/-- The duration `3*time.Minute`, in nanoseconds. -/
def threeMinutes : Int := 3 * 60 * 1000000000

/-- The method `bucket.Attributes`. -/
def bucket.Attributes (env : Env) (b : bucket) (key : String) :
    Except Error driver.Attributes × List Event :=
  match bucket.createDownloadRequest env b "HEAD" key "" threeMinutes with
  | (.error err, ev) => (.error err, ev)
  | (.ok request, ev) =>
    match env.Do request with
    | .error err => (.error err, ev ++ [.httpDo request])
    | .ok response =>
      match response.Body.Close with
      | some err => (.error err, ev ++ [.httpDo request, .bodyClose])
      | none =>
        if response.StatusCode ≠ 200 then
          (.error (.statusCode { code := response.StatusCode }),
            ev ++ [.httpDo request, .bodyClose])
        else (bucket.attributes env response, ev ++ [.httpDo request, .bodyClose])

/-! ## Range reads -/

/-- The type `reader`. -/
structure reader where
  attributes : driver.Attributes
  body : ReadCloser
  deriving DecidableEq, Repr

/-- The method `reader.Read`, into a buffer of `n` bytes. -/
def reader.Read (r : reader) (n : Nat) : (List Nat × Option Error) × reader :=
  ((r.body.Read n).1, { r with body := (r.body.Read n).2 })

/-- The method `reader.Close`. -/
def reader.Close (r : reader) : Option Error := r.body.Close

/-- The first statement of `NewRangeReader`: the value of the `Range` header, empty when none
is to be sent. -/
def byteRange (offset length : Int) : String :=
  if offset > 0 ∧ length < 0 then "bytes=" ++ fmtD offset ++ "-"
  else if length = 0 then "bytes=" ++ fmtD offset ++ "-" ++ fmtD offset
  else if length ≥ 0 then
    "bytes=" ++ fmtD offset ++ "-" ++ fmtD (wrap64 (wrap64 (offset + length) - 1))
  else ""

/-- The method `bucket.NewRangeReader`. -/
def bucket.NewRangeReader (env : Env) (b : bucket) (key : String) (offset length : Int) :
    Except Error reader × List Event :=
  match bucket.createDownloadRequest env b "GET" key (byteRange offset length) threeMinutes with
  | (.error err, ev) => (.error err, ev)
  | (.ok request, ev) =>
    match env.Do request with
    | .error err => (.error err, ev ++ [.httpDo request])
    | .ok response =>
      let closed : List Event := if length = 0 then [.bodyClose] else []
      let response : Response :=
        if length = 0 then { response with Body := .NoBody } else response
      if response.StatusCode ≠ 200 ∧ response.StatusCode ≠ 206 then
        (.error (.statusCode { code := response.StatusCode }), ev ++ [.httpDo request] ++ closed)
      else
        match bucket.attributes env response with
        | .error err => (.error err, ev ++ [.httpDo request] ++ closed)
        | .ok attrs =>
          (.ok { attributes := attrs, body := response.Body }, ev ++ [.httpDo request] ++ closed)

/-! ## Listing -/

/-- The type `driver.ListOptions`.  The page token, a `[]byte` that the code converts with
`string(opts.PageToken)`, is represented by that string. -/
structure driver.ListOptions where
  Prefix : String
  Delimiter : String
  PageToken : String
  PageSize : Int
  deriving DecidableEq, Repr

/-- The type `driver.ListObject`.  `ModTime` counts microseconds since the Unix epoch and is
`none` for the zero `time.Time`. -/
structure driver.ListObject where
  Key : String
  ModTime : Option Int
  Size : Int
  MD5 : List Nat
  IsDir : Bool
  deriving DecidableEq, Repr

/-- The type `driver.ListPage`.  The next page token, set by `[]byte(listFilesRet.Marker)`, is
represented by that string; it is empty when there is no next page. -/
structure driver.ListPage where
  Objects : List driver.ListObject
  NextPageToken : String
  deriving DecidableEq, Repr

/-- The constant `defaultPageSize`. -/
def defaultPageSize : Int := 1000

/-- The options `ListPaged` hands to the remote listing call. -/
def listInputOptions (opts : Option driver.ListOptions) : List ListInputOption :=
  let given : List ListInputOption :=
    match opts with
    | some opts =>
      (if opts.Prefix ≠ "" then [ListInputOption.Prefix opts.Prefix] else []) ++
      (if opts.Delimiter ≠ "" then [ListInputOption.Delimiter opts.Delimiter] else []) ++
      (if opts.PageToken ≠ "" then [ListInputOption.Marker opts.PageToken] else [])
    | none => []
  let pageSize : Int :=
    match opts with
    | some opts => opts.PageSize
    | none => 0
  let pageSize := if pageSize = 0 then defaultPageSize else pageSize
  given ++ [ListInputOption.Limit pageSize]

/-- The inner loop of the library's insertion sort, on the part already sorted, held last
element first: the new element `x` moves left while it is less than its left neighbour. -/
def insertLeft {α : Type} (less : α → α → Bool) (x : α) : List α → List α
  | [] => [x]
  | y :: ys => if less x y then y :: insertLeft less x ys else x :: y :: ys

/-- The library function `sort.Slice`, as the insertion sort it runs on short slices
(`insertionSortLessFunc`). -/
def sortSlice {α : Type} (less : α → α → Bool) (xs : List α) : List α :=
  (xs.foldl (fun sorted x => insertLeft less x sorted) []).reverse

/-- The entry `ListPaged` appends for a common prefix. -/
def dirObject (commonPrefix : String) : driver.ListObject :=
  { Key := commonPrefix, ModTime := none, Size := 0, MD5 := [], IsDir := true }

/-- The entry `ListPaged` appends for an item; `time.UnixMicro(item.PutTime * 10)` multiplies
in `int64`. -/
def fileObject (item : ListItem) : driver.ListObject :=
  { Key := item.Key
    ModTime := some (wrap64 (item.PutTime * 10))
    Size := item.Fsize
    MD5 := bytesOf item.Md5
    IsDir := false }

/-- The method `bucket.ListPaged`. -/
def bucket.ListPaged (env : Env) (b : bucket) (opts : Option driver.ListOptions) :
    Except Error driver.ListPage × List Event :=
  let options := listInputOptions opts
  match env.ListFilesWithContext b.name options with
  | .error err => (.error err, [.listFiles b.name options])
  | .ok (listFilesRet, hasNext) =>
    let objects := listFilesRet.CommonPrefixes.map dirObject ++ listFilesRet.Items.map fileObject
    let objects :=
      if objects.length > 0 then sortSlice (fun x y => stringLess x.Key y.Key) objects
      else objects
    (.ok { Objects := objects, NextPageToken := if hasNext then listFilesRet.Marker else "" },
      [.listFiles b.name options])

/-! ## The streaming upload writer

`writer.Write` lazily creates an `io.Pipe` and starts a goroutine that hands the read side to
`uploadManager.Put`; `writer.Close` closes the write side and waits for the goroutine.  The
three fields `err`, `pw` and `source` are shared between the caller and the goroutine without
a lock, so the model is an interleaving of the statements of both. -/

/-- The state of one `io.Pipe`: the bytes the reader has taken so far and whether the pipe
has been closed (`PipeWriter.Close`). -/
structure pipe where
  data : List Nat
  done : Bool
  deriving DecidableEq, Repr

/-- The type `storage.PutPolicy`, with the two fields `NewTypedWriter` sets. -/
structure PutPolicy where
  Scope : String
  Expires : Nat
  deriving DecidableEq, Repr

/-- The type `storage.UploadExtra`, with the two fields `NewTypedWriter` sets. -/
structure UploadExtra where
  Params : GoMap String
  MimeType : String
  deriving DecidableEq, Repr

/-- The type `writer`.  `pw` and `source` name a pipe by its index in the heap of pipes (the
source wraps the read side of that pipe); `wg` is the counter of the `sync.WaitGroup`. -/
structure writer where
  b : bucket
  key : String
  putPolicy : PutPolicy
  uploadExtra : UploadExtra
  source : Option Nat
  wg : Nat
  err : Option Error
  pw : Option Nat
  deriving DecidableEq, Repr

/-- What a call of the caller's thread returned. -/
inductive Ret where
  /-- The result of `Close`. -/
  | close (err : Option Error)
  /-- The result of `Write`. -/
  | write (n : Nat) (err : Option Error)
  deriving DecidableEq, Repr

/-- The program counter of the caller's thread inside `writer.Close` and `writer.Write`. -/
inductive MainPC where
  /-- Between two calls; `last` is what the previous call returned. -/
  | idle (last : Option Ret)
  /-- The test `if w.pw != nil` of `Close`. -/
  | closeEnter
  /-- The statement `err := w.pw.Close()`. -/
  | closePipe
  /-- The statement `if err == nil { err = w.err }`. -/
  | closeReadErr (err : Option Error)
  /-- The statement `w.err = nil`. -/
  | closeClearErr (err : Option Error)
  /-- The statement `w.source = nil`. -/
  | closeClearSource (err : Option Error)
  /-- The statement `w.pw = nil`. -/
  | closeClearPw (err : Option Error)
  /-- The statement `w.wg.Wait()`. -/
  | closeWait (err : Option Error)
  /-- The test `if w.pw == nil` of `Write`. -/
  | writeEnter (p : List Nat)
  /-- The statements `pr, pw := io.Pipe(); w.pw = pw`. -/
  | writeMkPipe (p : List Nat)
  /-- The statement `w.source, err = storage.NewUploadSourceReader(pr, -1)` and its test. -/
  | writeMkSource (p : List Nat) (pr : Nat)
  /-- The statement `w.wg.Add(1)`. -/
  | writeWgAdd (p : List Nat)
  /-- The statement `go func() { ... }()`. -/
  | writeGo (p : List Nat)
  /-- The test `if w.err != nil { return 0, w.err }`. -/
  | writeCheckErr (p : List Nat)
  /-- The call `w.pw.Write(p)`. -/
  | writePipe (p : List Nat)
  /-- Blocked inside `PipeWriter.Write` on pipe `i`: `rest` is still to be handed over, `n`
  bytes were taken, `once` is the flag of the loop `for once := true; once || len(b) > 0`. -/
  | writeBlocked (i : Nat) (rest : List Nat) (n : Nat) (once : Bool)
  deriving DecidableEq, Repr

/-- The program counter of the goroutine started by `Write`. -/
inductive TaskPC where
  /-- About to evaluate the arguments of `w.b.uploadManager.Put` and call it. -/
  | start
  /-- Inside `Put`, which reads from the source it was given. -/
  | inPut (src : Option Nat)
  /-- The test `if w.pw != nil`. -/
  | testPw
  /-- The statement `w.source = nil`. -/
  | clearSource
  /-- The statement `w.pw.Close()`. -/
  | closePw
  /-- The statement `w.pw = nil`. -/
  | clearPw
  /-- The statement `w.err = nil` of the else branch. -/
  | clearErr
  /-- The deferred `w.wg.Done()`. -/
  | wgDone
  /-- The goroutine has returned. -/
  | exited
  deriving DecidableEq, Repr

/-- One call of the remote upload `uploadManager.Put`: the key and the source it was given. -/
structure PutCall where
  key : String
  source : Option Nat
  deriving DecidableEq, Repr

/-- The writer together with everything its two threads act on. -/
structure World where
  w : writer
  pipes : List pipe
  tasks : List TaskPC
  main : MainPC
  puts : List PutCall
  panicked : Bool
  deriving DecidableEq, Repr

/-- One scheduling decision.  The outcomes chosen by the collaborators travel with it. -/
inductive Action where
  /-- The caller calls `w.Close()`. -/
  | callClose
  /-- The caller calls `w.Write(p)`. -/
  | callWrite (p : List Nat)
  /-- The caller's thread executes its next statement. -/
  | main
  /-- The caller's thread executes `storage.NewUploadSourceReader`, which reports `err`. -/
  | newSource (err : Option Error)
  /-- Goroutine `i` executes its next statement. -/
  | task (i : Nat)
  /-- The upload call of goroutine `i` takes `n` bytes from the blocked `PipeWriter.Write`. -/
  | consume (i : Nat) (n : Nat)
  /-- The upload call of goroutine `i` returns `r`, which is stored: `w.err = Put(...)`. -/
  | putReturn (i : Nat) (r : Option Error)
  deriving DecidableEq, Repr

/-- The method `PipeWriter.Close`: marks pipe `i` closed. -/
def pipeClose (pipes : List pipe) (i : Nat) : List pipe :=
  pipes.modify (fun q => { q with done := true }) i

/-- Whether pipe `i` has been closed. -/
def pipeDone (pipes : List pipe) (i : Nat) : Bool :=
  match pipes.get? i with
  | some q => q.done
  | none => false

/-- The caller's thread executes one statement of `Close` or `Write`.  `none`: the thread is
blocked or between calls. -/
def stepMain (s : World) : Option World :=
  match s.main with
  | .idle _ => none
  -- func (w *writer) Close() error
  | .closeEnter =>
    if s.w.pw.isSome then some { s with main := .closePipe }
    else some { s with main := .idle (some (.close none)) }
  | .closePipe =>
    match s.w.pw with
    | none => some { s with panicked := true }
    | some i => some { s with pipes := pipeClose s.pipes i, main := .closeReadErr none }
  | .closeReadErr err =>
    some { s with main := .closeClearErr (if err.isNone then s.w.err else err) }
  | .closeClearErr err => some { s with w := { s.w with err := none }, main := .closeClearSource err }
  | .closeClearSource err => some { s with w := { s.w with source := none }, main := .closeClearPw err }
  | .closeClearPw err => some { s with w := { s.w with pw := none }, main := .closeWait err }
  | .closeWait err =>
    if s.w.wg = 0 then some { s with main := .idle (some (.close err)) } else none
  -- func (w *writer) Write(p []byte) (int, error)
  | .writeEnter p =>
    if s.w.pw.isNone then some { s with main := .writeMkPipe p }
    else some { s with main := .writeCheckErr p }
  | .writeMkPipe p =>
    some { s with pipes := s.pipes ++ [{ data := [], done := false }],
                  w := { s.w with pw := some s.pipes.length },
                  main := .writeMkSource p s.pipes.length }
  | .writeMkSource _ _ => none
  | .writeWgAdd p => some { s with w := { s.w with wg := s.w.wg + 1 }, main := .writeGo p }
  | .writeGo p => some { s with tasks := s.tasks ++ [.start], main := .writeCheckErr p }
  | .writeCheckErr p =>
    match s.w.err with
    | some e => some { s with main := .idle (some (.write 0 (some e))) }
    | none => some { s with main := .writePipe p }
  | .writePipe p =>
    match s.w.pw with
    | none => some { s with panicked := true }
    | some i =>
      if pipeDone s.pipes i then some { s with main := .idle (some (.write 0 (some .ErrClosedPipe))) }
      else some { s with main := .writeBlocked i p 0 true }
  | .writeBlocked i rest n once =>
    if pipeDone s.pipes i then some { s with main := .idle (some (.write n (some .ErrClosedPipe))) }
    else if !once && rest.isEmpty then some { s with main := .idle (some (.write n none)) }
    else none

/-- Goroutine `i`, at program counter `pc`, executes one statement of the function literal in
`Write`.  `none`: it is inside `Put` or has returned. -/
def stepTask (s : World) (i : Nat) (pc : TaskPC) : Option World :=
  let goto (s : World) (pc : TaskPC) : World := { s with tasks := s.tasks.set i pc }
  match pc with
  | .start =>
    some (goto { s with puts := s.puts ++ [{ key := s.w.key, source := s.w.source }] }
      (.inPut s.w.source))
  | .inPut _ => none
  | .testPw => some (goto s (if s.w.pw.isSome then .clearSource else .clearErr))
  | .clearSource => some (goto { s with w := { s.w with source := none } } .closePw)
  | .closePw =>
    match s.w.pw with
    | none => some { s with panicked := true }
    | some j => some (goto { s with pipes := pipeClose s.pipes j } .clearPw)
  | .clearPw => some (goto { s with w := { s.w with pw := none } } .wgDone)
  | .clearErr => some (goto { s with w := { s.w with err := none } } .wgDone)
  | .wgDone =>
    if s.w.wg = 0 then some { s with panicked := true }
    else some (goto { s with w := { s.w with wg := s.w.wg - 1 } } .exited)
  | .exited => none

/-- One step of the whole system.  `none`: the action is not enabled in `s`. -/
def step (a : Action) (s : World) : Option World :=
  if s.panicked then none else
  match a with
  | .callClose =>
    match s.main with
    | .idle _ => some { s with main := .closeEnter }
    | _ => none
  | .callWrite p =>
    match s.main with
    | .idle _ => some { s with main := .writeEnter p }
    | _ => none
  | .main => stepMain s
  | .newSource err =>
    match s.main with
    | .writeMkSource p pr =>
      match err with
      | some e => some { s with w := { s.w with source := none },
                                main := .idle (some (.write 0 (some e))) }
      | none => some { s with w := { s.w with source := some pr }, main := .writeWgAdd p }
    | _ => none
  | .task i =>
    match s.tasks.get? i with
    | some pc => stepTask s i pc
    | none => none
  | .consume i n =>
    match s.tasks.get? i, s.main with
    | some (.inPut (some j)), .writeBlocked k rest m _ =>
      if j = k ∧ ¬ pipeDone s.pipes k ∧ n ≤ rest.length then
        some { s with pipes := s.pipes.modify (fun q => { q with data := q.data ++ rest.take n }) k,
                      main := .writeBlocked k (rest.drop n) (m + n) false }
      else none
    | _, _ => none
  | .putReturn i r =>
    match s.tasks.get? i with
    | some (.inPut _) => some { s with w := { s.w with err := r }, tasks := s.tasks.set i .testPw }
    | _ => none

/-- Runs a schedule; `none` when one of its actions is not enabled. -/
def run : List Action → World → Option World
  | [], s => some s
  | a :: as, s => (step a s).bind (run as)

/-- The type `driver.WriterOptions`, with the field `NewTypedWriter` reads. -/
structure driver.WriterOptions where
  Metadata : GoMap String
  deriving DecidableEq, Repr

/-- The method `bucket.NewTypedWriter`: it builds the upload session and returns a writer
with no pipe, no source and no error; it never fails. -/
def bucket.NewTypedWriter (b : bucket) (key contentType : String) (opts : driver.WriterOptions) :
    writer × Option Error :=
  ({ b := b
     key := key
     putPolicy := { Scope := b.name ++ ":" ++ key, Expires := 24 * 3600 }
     uploadExtra := { Params := convertMetadataToParams opts.Metadata, MimeType := contentType }
     source := none
     wg := 0
     err := none
     pw := none }, none)

/-- The world of a writer nobody has used yet. -/
def World.init (w : writer) : World :=
  { w := w, pipes := [], tasks := [], main := .idle none, puts := [], panicked := false }

/-- After `Close` has cleared `w.pw`, and once it has returned, the writer holds no pipe. -/
def closedNoPipe (s : World) : Prop :=
  match s.main with
  | .closeWait _ => s.w.pw = none
  | .idle (some (.close _)) => s.w.pw = none
  | _ => True


/-- A bucket without download domains, as the tests open it. -/
def testBucket : bucket :=
  { name := "bucket"
    downloadDomains := []
    willSignDownloadUrl := false
    preferHttps := false
    credentials := { AccessKey := "ak", SecretKey := [115, 107] } }

/-- The writer the upload test creates, before any call. -/
def testWorld : World :=
  World.init (bucket.NewTypedWriter testBucket "existed-file" "text/plain"
    { Metadata := [("data-a", "value-1"), ("data-b", "value-2")] }).1

/-- A first `Write` of three bytes, run to its return: the pipe is created, the goroutine is
started and calls `Put`, `Put` takes the three bytes and `Write` returns `(3, nil)`. -/
def firstWrite : List Action :=
  [.callWrite [1, 2, 3],
   .main,             -- if w.pw == nil
   .main,             -- pr, pw := io.Pipe(); w.pw = pw
   .newSource none,   -- w.source, err = storage.NewUploadSourceReader(pr, -1)
   .main,             -- w.wg.Add(1)
   .main,             -- go func() { ... }()
   .main,             -- if w.err != nil
   .main,             -- w.pw.Write(p) starts
   .task 0,           -- the goroutine calls Put
   .consume 0 3,      -- Put reads the three bytes
   .main]             -- w.pw.Write(p) returns (3, nil)

/-- The upload call of goroutine 0 returns `E` while the writer still holds its pipe, and the
goroutine runs to its end. -/
def uploadFails (E : Error) : List Action :=
  [.putReturn 0 (some E),   -- w.err = Put(...)
   .task 0,                 -- if w.pw != nil
   .task 0,                 -- w.source = nil
   .task 0,                 -- w.pw.Close()
   .task 0,                 -- w.pw = nil
   .task 0]                 -- w.wg.Done()

/-- A `Close` during which the upload call returns `E` after the pipe has been closed. -/
def closeThenUploadFails (E : Error) : List Action :=
  [.callClose,
   .main,                   -- if w.pw != nil
   .main,                   -- err := w.pw.Close()
   .main,                   -- if err == nil { err = w.err }
   .main,                   -- w.err = nil
   .main,                   -- w.source = nil
   .main,                   -- w.pw = nil
   .putReturn 0 (some E),   -- w.err = Put(...), after the end of the stream
   .task 0,                 -- if w.pw != nil
   .task 0,                 -- w.err = nil
   .task 0,                 -- w.wg.Done()
   .main]                   -- w.wg.Wait() returns; return err

/-- A second `Write`, of one byte, run to its return, after which the goroutine it started
gets to run. -/
def secondWrite : List Action :=
  [.callWrite [4],
   .main,             -- if w.pw == nil
   .main,             -- pr, pw := io.Pipe(); w.pw = pw
   .newSource none,   -- w.source, err = storage.NewUploadSourceReader(pr, -1)
   .main,             -- w.wg.Add(1)
   .main,             -- go func() { ... }()
   .main,             -- if w.err != nil { return 0, w.err }
   .task 1]           -- the new goroutine calls Put

/-- Collaborators as the tests mock them: the region resolver reports the source host
`iosrc.example.com`, URLs are parsed and signed textually, and the transport answers every
request with `answer`. -/
def testEnv (answer : Except Error Response) : Env :=
  { GetRegionWithOptions := fun _ _ _ => .ok { IoSrcHost := "iosrc.example.com" }
    urlParse := fun s => .ok { text := s }
    MakePrivateURLv2 := fun _ domain key deadline =>
      domain ++ "/" ++ key ++ "?e=" ++ fmtD deadline ++ "&token=t"
    MakePublicURLv2 := fun domain key => domain ++ "/" ++ key
    now := 0
    newRequestErr := fun _ _ => none
    Do := fun _ => answer
    userAgent := "QiniuGoCloudDevKodoBlob/0.1.0"
    parseRFC1123 := fun _ => none
    unicodeLower := id
    ListFilesWithContext := fun _ _ =>
      .ok ({ Marker := "", Items := [], CommonPrefixes := [] }, false) }

/-- A response with the given status code and body, and no header. -/
def testResponse (code : Int) (body : ReadCloser) : Response :=
  { StatusCode := code, Header := [], ContentLength := 0, Body := body }

/-- The request `NewRangeReader` and `Attributes` build under `testEnv` for `testBucket` and
the key `existed-file`, with the given method and header. -/
def testRequest (method : String) (header : GoMap (List String)) : Request :=
  { Method := method
    URL := "http://iosrc.example.com/existed-file?e=180&token=t"
    Header := header }

/-- The response header that carries every upload parameter under its own name, with its
value as the single value. -/
def headersOfParams (params : GoMap String) : GoMap (List String) :=
  params.map (fun kv => (kv.1, [kv.2]))

/-- A listing with two common prefixes and two items, out of order. -/
def testListing : ListFilesRet :=
  { Marker := "marker_0"
    Items := [{ Key := "data_00001", PutTime := 17000000000000000, Fsize := 1, Md5 := "md5_1" },
              { Key := "b/file", PutTime := 17000000000000001, Fsize := 7, Md5 := "md5_7" }]
    CommonPrefixes := ["c/", "a/"] }

/-- The test collaborators with a remote listing that answers `testListing`. -/
def testListEnv (hasNext : Bool) : Env :=
  { testEnv (.error .EOF) with ListFilesWithContext := fun _ _ => .ok (testListing, hasNext) }

/-! ## Signed URLs -/

/-- The type `driver.SignedURLOptions`, with the fields `SignedURL` reads; `Expiry` is a
`time.Duration`, in nanoseconds. -/
structure driver.SignedURLOptions where
  Expiry : Int
  Method : String
  deriving DecidableEq, Repr

/-- The method `bucket.SignedURL`. -/
def bucket.SignedURL (env : Env) (b : bucket) (key : String) (opts : driver.SignedURLOptions) :
    Except Error String × List Event :=
  if opts.Method = "GET" then bucket.signDownloadUrl env b key opts.Expiry
  else if opts.Method = "PUT" then (.error .ErrNotSupportedSignedPutUrl, [])
  else if opts.Method = "DELETE" then (.error .ErrNotSupportedSignedDeleteUrl, [])
  else (.error (.unsupportedMethod opts.Method), [])

/-- The pair `(string, error)` a Go function returns: every error return of `signDownloadUrl`
and `SignedURL` is `return "", err`. -/
def urlResult : Except Error String → String × Option Error
  | .ok url => (url, none)
  | .error err => ("", some err)

/-! ## Opening a bucket -/

/-- The type `storage.Config`, with the fields `createConfig` sets; `Region` is a pointer,
`none` when `nil`. -/
structure Config where
  UseHTTPS : Bool
  UseCdnDomains : Bool
  Region : Option Region
  deriving DecidableEq, Repr

/-- How a Go call ends: it returns, or the runtime panics. -/
inductive Outcome (α : Type) where
  | returned (a : α)
  /-- The runtime panic `invalid memory address or nil pointer dereference`. -/
  | nilDereference
  deriving DecidableEq, Repr

/-- Sequencing of Go statements: a panic ends the call. -/
def Outcome.andThen {α β : Type} : Outcome α → (α → Outcome β) → Outcome β
  | .returned a, f => f a
  | .nilDereference, _ => .nilDereference

/-- An assignment `region.Field = value` through the pointer `region`: it panics when the
pointer is `nil`. -/
def assignField (region : Option Region) (update : Region → Region) : Outcome (Option Region) :=
  match region with
  | none => .nilDereference
  | some r => .returned (some (update r))

/-- The method `url.Values.Get`: the first value stored under the key, or the empty string. -/
def ValuesGet (query : GoMap (List String)) (key : String) : String :=
  match GoMap.get? query key with
  | some (v :: _) => v
  | _ => ""

/-- What `createConfig` returns: the config, the error, and the hosts it handed to
`storage.SetUcHosts`, if it called it. -/
structure ConfigResult where
  config : Config
  err : Option Error
  ucHosts : Option (List String)
  deriving DecidableEq, Repr

/-- The method `urlSessionOpener.createConfig`.  The variable `region` is declared as a `nil`
pointer (`var region *storage.Region`) and no statement makes it point anywhere. -/
def createConfig (query : GoMap (List String)) : Outcome ConfigResult :=
  let region : Option Region := none
  let useRegion := false
  let ucHosts : Option (List String) :=
    match GoMap.get? query "bucketHost" with
    | some hosts => some hosts
    | none => GoMap.get? query "ucHost"
  let UseHTTPS := (GoMap.get? query "useHttps").isSome
  (match GoMap.get? query "srcUpHost" with
    | some srcUpHosts =>
      (assignField region (fun r => { r with SrcUpHosts := srcUpHosts })).andThen
        (fun region => .returned (region, true))
    | none => .returned (region, useRegion)).andThen fun (region, useRegion) =>
  (match GoMap.get? query "cdnUpHost" with
    | some cdnUpHosts =>
      (assignField region (fun r => { r with CdnUpHosts := cdnUpHosts })).andThen
        (fun region => .returned (region, true))
    | none => .returned (region, useRegion)).andThen fun (region, useRegion) =>
  (if ValuesGet query "rsHost" ≠ "" then
      (assignField region (fun r => { r with RsHost := ValuesGet query "rsHost" })).andThen
        (fun region => .returned (region, true))
    else .returned (region, useRegion)).andThen fun (region, useRegion) =>
  (if ValuesGet query "rsfHost" ≠ "" then
      (assignField region (fun r => { r with RsfHost := ValuesGet query "rsfHost" })).andThen
        (fun region => .returned (region, true))
    else .returned (region, useRegion)).andThen fun (region, useRegion) =>
  (if ValuesGet query "apiHost" ≠ "" then
      (assignField region (fun r => { r with ApiHost := ValuesGet query "apiHost" })).andThen
        (fun region => .returned (region, true))
    else .returned (region, useRegion)).andThen fun (region, useRegion) =>
  .returned
    { config := { UseHTTPS := UseHTTPS, UseCdnDomains := true,
                  Region := if useRegion then region else none }
      err := none
      ucHosts := ucHosts }

/-- The test collaborators with a region resolver that succeeds and reports no source host. -/
def testEnvNoSource (answer : Except Error Response) : Env :=
  { testEnv answer with GetRegionWithOptions := fun _ _ _ => .ok { IoSrcHost := "" } }

/-- A bucket opened with the explicit download domain `http://cdn.example.com`. -/
def testDomainBucket (willSign : Bool) : bucket :=
  { testBucket with
    downloadDomains := [{ text := "http://cdn.example.com" }, { text := "http://other.example.com" }]
    willSignDownloadUrl := willSign }

/-! # Theorems -/

/-! ## The streaming upload writer -/

theorem stepMain_closedNoPipe (s s' : World) (h : closedNoPipe s) (hs : stepMain s = some s') :
    closedNoPipe s' := by
  unfold stepMain at hs
  unfold closedNoPipe at h ⊢
  split at hs <;> try (split at hs) <;> try (split at hs)
  all_goals (first | contradiction | (simp only [Option.some.injEq] at hs; subst hs; simp_all))

theorem stepTask_closedNoPipe (s s' : World) (i : Nat) (pc : TaskPC) (h : closedNoPipe s)
    (hs : stepTask s i pc = some s') : closedNoPipe s' := by
  unfold stepTask at hs
  unfold closedNoPipe at h ⊢
  split at hs <;> try (split at hs)
  all_goals (first | contradiction | (simp only [Option.some.injEq] at hs; subst hs; simp only []; split <;> simp_all))

theorem step_closedNoPipe (a : Action) (s s' : World) (h : closedNoPipe s)
    (hs : step a s = some s') : closedNoPipe s' := by
  unfold step at hs
  split at hs
  · contradiction
  · cases a with
    | main => exact stepMain_closedNoPipe s s' h hs
    | task i =>
      simp only [] at hs
      split at hs
      · exact stepTask_closedNoPipe s s' i _ h hs
      · contradiction
    | callClose =>
      simp only [] at hs
      split at hs
      · simp only [Option.some.injEq] at hs; subst hs; simp [closedNoPipe]
      · contradiction
    | callWrite p =>
      simp only [] at hs
      split at hs
      · simp only [Option.some.injEq] at hs; subst hs; simp [closedNoPipe]
      · contradiction
    | newSource err =>
      simp only [] at hs
      split at hs
      · split at hs <;> (simp only [Option.some.injEq] at hs; subst hs; simp [closedNoPipe])
      · contradiction
    | consume i n =>
      simp only [] at hs
      split at hs
      · split at hs
        · simp only [Option.some.injEq] at hs; subst hs; simp [closedNoPipe]
        · contradiction
      · contradiction
    | putReturn i r =>
      simp only [] at hs
      split at hs
      · simp only [Option.some.injEq] at hs; subst hs
        unfold closedNoPipe at h ⊢
        simp only []; split <;> simp_all
      · contradiction

theorem run_closedNoPipe (as : List Action) (s s' : World) (h : closedNoPipe s)
    (hs : run as s = some s') : closedNoPipe s' := by
  induction as generalizing s with
  | nil => simp only [run, Option.some.injEq] at hs; subst hs; exact h
  | cons a as ih =>
    simp only [run] at hs
    cases hstep : step a s with
    | none => rw [hstep] at hs; simp at hs
    | some t =>
      rw [hstep] at hs
      exact ih t (step_closedNoPipe a s t h hstep) hs

/-- C1 (the code at the failing input): a first `Write` starts the upload, `Close` closes the
pipe, the upload call then returns the error `E`, and `Close` returns `nil`: it read `w.err`
before waiting, and the goroutine, finding `w.pw` already `nil`, erases the error it stored. -/
theorem close_returns_nil_when_upload_fails_after_pipe_closed (E : Error) :
    run (firstWrite ++ closeThenUploadFails E) testWorld =
      some { testWorld with
        pipes := [{ data := [1, 2, 3], done := true }]
        tasks := [.exited]
        puts := [{ key := "existed-file", source := some 0 }]
        main := .idle (some (.close none)) } := by
  rfl

/-- C2 (the code at the failing input): the upload started by the first `Write` fails with `E`
and its goroutine ends before `Close` is called; the goroutine has set `w.pw` to `nil`, so
`Close` takes its no-pipe branch and returns `nil`, while `E` is still stored in `w.err`. -/
theorem close_returns_nil_when_upload_failed_before_close (E : Error) :
    run (firstWrite ++ uploadFails E ++ [.callClose, .main]) testWorld =
      some { testWorld with
        w := { testWorld.w with err := some E }
        pipes := [{ data := [1, 2, 3], done := true }]
        tasks := [.exited]
        puts := [{ key := "existed-file", source := some 0 }]
        main := .idle (some (.close none)) } := by
  rfl

/-- C3 (the code at the failing input): after the upload has failed with `E` and its goroutine
has ended, the next `Write` returns `(0, E)` and hands no byte to a pipe, but before testing
`w.err` it has created a second pipe, stored it in `w.pw` and `w.source`, raised the wait group
and started a second goroutine, which calls `Put` once more. -/
theorem write_after_failed_upload_starts_new_upload (E : Error) :
    run (firstWrite ++ uploadFails E ++ secondWrite) testWorld =
      some { testWorld with
        w := { testWorld.w with err := some E, pw := some 1, source := some 1, wg := 1 }
        pipes := [{ data := [1, 2, 3], done := true }, { data := [], done := false }]
        tasks := [.exited, .inPut (some 1)]
        puts := [{ key := "existed-file", source := some 0 },
                 { key := "existed-file", source := some 1 }]
        main := .idle (some (.write 0 (some E))) } := by
  rfl

/-- C4: `Close` on a writer without an open pipe returns `nil` after one statement and leaves
the writer, the pipes, the goroutines and the list of upload calls as they were.  This covers
every idle writer whose `pw` is `nil`, the writer `NewTypedWriter` returns, and the writer
after any `Close` has returned, whatever happened before and during that `Close`. -/
theorem close_without_pipe_is_noop (s : World) (hlive : s.panicked = false)
    (h : (∃ last, s.main = .idle last ∧ s.w.pw = none) ∨
         (∃ b key contentType opts,
            s = World.init (bucket.NewTypedWriter b key contentType opts).1) ∨
         (∃ b key contentType opts as r,
            run as (World.init (bucket.NewTypedWriter b key contentType opts).1) = some s ∧
            s.main = .idle (some (.close r)))) :
    run [.callClose, .main] s = some { s with main := .idle (some (.close none)) } := by
  have key : ∃ last, s.main = .idle last ∧ s.w.pw = none := by
    rcases h with h | ⟨name, key, ct, opts, rfl⟩ | ⟨name, key, ct, opts, as, r, hrun, hmain⟩
    · exact h
    · exact ⟨none, rfl, rfl⟩
    · refine ⟨_, hmain, ?_⟩
      have hinv := run_closedNoPipe as _ s (by simp [closedNoPipe, World.init]) hrun
      simpa [closedNoPipe, hmain] using hinv
  obtain ⟨last, hmain, hpw⟩ := key
  simp [run, step, stepMain, hlive, hmain, hpw]

/-- The world after `firstWrite` and a `Close` during which the upload ended. -/
theorem run_firstWrite_close :
    run (firstWrite ++ closeThenUploadFails .ErrClosedPipe) testWorld =
      some { testWorld with
        pipes := [{ data := [1, 2, 3], done := true }]
        tasks := [.exited]
        puts := [{ key := "existed-file", source := some 0 }]
        main := .idle (some (.close none)) } := by
  rfl

/-- C4, at the test writer after a `Write` and a first `Close`: the second `Close` returns
`nil` and changes nothing. -/
theorem close_without_pipe_is_noop_witness :
    run [.callClose, .main]
        { testWorld with
          pipes := [{ data := [1, 2, 3], done := true }]
          tasks := [.exited]
          puts := [{ key := "existed-file", source := some 0 }]
          main := .idle (some (.close none)) } =
      some { testWorld with
          pipes := [{ data := [1, 2, 3], done := true }]
          tasks := [.exited]
          puts := [{ key := "existed-file", source := some 0 }]
          main := .idle (some (.close none)) } :=
  close_without_pipe_is_noop _ rfl
    (Or.inr (Or.inr ⟨testBucket, "existed-file", "text/plain",
      { Metadata := [("data-a", "value-1"), ("data-b", "value-2")] },
      firstWrite ++ closeThenUploadFails .ErrClosedPipe, none, run_firstWrite_close, rfl⟩))

/-! ## Range reads and attributes -/

theorem signDownloadUrl_no_httpDo (env : Env) (b : bucket) (key : String) (expiry : Int)
    (req : Request) : Event.httpDo req ∉ (bucket.signDownloadUrl env b key expiry).2 := by
  unfold bucket.signDownloadUrl
  split
  · simp
  · simp only []
    split
    · simp
    · split
      · simp
      · split <;> simp

theorem createDownloadRequest_events (env : Env) (b : bucket) (method key br : String)
    (expiry : Int) :
    (bucket.createDownloadRequest env b method key br expiry).2 =
      (bucket.signDownloadUrl env b key expiry).2 := by
  unfold bucket.createDownloadRequest
  split
  · next h => rw [h]
  · next h => rw [h]; split <;> rfl

theorem createDownloadRequest_header (env : Env) (b : bucket) (method key br : String)
    (expiry : Int) (req : Request)
    (h : (bucket.createDownloadRequest env b method key br expiry).1 = .ok req) :
    req.Header = if br ≠ "" then [("User-Agent", [env.userAgent]), ("Range", [br])]
      else [("User-Agent", [env.userAgent])] := by
  unfold bucket.createDownloadRequest at h
  split at h
  · simp at h
  · split at h
    · simp at h
    · simp only [Except.ok.injEq] at h
      subst h
      by_cases hbr : br = "" <;> simp [hbr, HeaderSet, GoMap.set]

theorem NewRangeReader_events (env : Env) (b : bucket) (key : String) (offset length : Int)
    (request : Request) (ev : List Event)
    (hc : bucket.createDownloadRequest env b "GET" key (byteRange offset length) threeMinutes =
      (.ok request, ev)) :
    (bucket.NewRangeReader env b key offset length).2 = ev ++ [.httpDo request] ∨
    (bucket.NewRangeReader env b key offset length).2 = ev ++ [.httpDo request, .bodyClose] := by
  unfold bucket.NewRangeReader
  rw [hc]
  simp only []
  cases env.Do request with
  | error err => left; rfl
  | ok response =>
    by_cases hl : length = 0 <;>
      by_cases hs : response.StatusCode ≠ 200 ∧ response.StatusCode ≠ 206 <;>
      simp [hl, hs, bucket.attributes]

theorem NewRangeReader_sent (env : Env) (b : bucket) (key : String) (offset length : Int)
    (req : Request) (h : Event.httpDo req ∈ (bucket.NewRangeReader env b key offset length).2) :
    (bucket.createDownloadRequest env b "GET" key (byteRange offset length) threeMinutes).1 =
      .ok req := by
  have hno : Event.httpDo req ∉
      (bucket.createDownloadRequest env b "GET" key (byteRange offset length) threeMinutes).2 := by
    rw [createDownloadRequest_events]; exact signDownloadUrl_no_httpDo _ _ _ _ _
  cases hc : bucket.createDownloadRequest env b "GET" key (byteRange offset length)
      threeMinutes with
  | mk res ev =>
    rw [hc] at hno
    cases res with
    | error err =>
      unfold bucket.NewRangeReader at h
      rw [hc] at h
      exact absurd h hno
    | ok request =>
      have hsame : req = request := by
        rcases NewRangeReader_events env b key offset length request ev hc with he | he
        · rw [he] at h; simpa [hno] using h
        · rw [he] at h; simpa [hno] using h
      rw [hsame]

theorem range_header_of_sent (env : Env) (b : bucket) (key : String) (offset length : Int)
    (req : Request) (h : Event.httpDo req ∈ (bucket.NewRangeReader env b key offset length).2) :
    GoMap.get? req.Header "Range" =
      if byteRange offset length ≠ "" then some [byteRange offset length] else none := by
  rw [createDownloadRequest_header env b "GET" key _ threeMinutes req
    (NewRangeReader_sent env b key offset length req h)]
  by_cases hbr : byteRange offset length = "" <;> simp [hbr, GoMap.get?]

theorem bytes_append_ne_empty (t : String) : "bytes=" ++ t ≠ "" := by
  intro h
  have := congrArg String.length h
  simp [String.length_append] at this
  exact absurd this.1 (by decide)

theorem wrap64_add_sub_one (offset length : Int) :
    wrap64 (wrap64 (offset + length) - 1) = wrap64 (offset + length - 1) := by
  unfold wrap64
  norm_num
  omega

theorem wrap64_of_range (x : Int) (h1 : -2 ^ 63 ≤ x) (h2 : x < 2 ^ 63) : wrap64 x = x := by
  unfold wrap64
  norm_num at *
  omega

/-- C5 (counterexample): with offset 5 and length 0 the request carries `Range: bytes=5-5`,
whereas `bytes=<offset>-<offset+length-1>` is `bytes=5-4`. -/
theorem range_header_length_zero_counterexample :
    (bucket.NewRangeReader (testEnv (.ok (testResponse 206 .NoBody))) testBucket
        "existed-file" 5 0).2 =
      [.getRegion "ak" "bucket" false,
       .httpDo (testRequest "GET"
         [("User-Agent", ["QiniuGoCloudDevKodoBlob/0.1.0"]), ("Range", ["bytes=5-5"])]),
       .bodyClose] ∧
    "bytes=" ++ fmtD 5 ++ "-" ++ fmtD (5 + 0 - 1) = "bytes=5-4" := by
  decide

/-- C5 (amended): for every offset >= 0 and every length >= 0, the request `NewRangeReader`
sends carries the `Range` header `bytes=<offset>-<offset>` when length is 0, and
`bytes=<offset>-<e>` when length is positive, where `e` is the `int64` value of
`offset+length-1`, which is the integer `offset+length-1` whenever that is below `2^63`. -/
theorem range_header_for_nonnegative_length (env : Env) (b : bucket) (key : String)
    (offset length : Int) (req : Request) (hoff : 0 ≤ offset) (hlen : 0 ≤ length)
    (hsent : Event.httpDo req ∈ (bucket.NewRangeReader env b key offset length).2) :
    (length = 0 → GoMap.get? req.Header "Range" =
      some ["bytes=" ++ fmtD offset ++ "-" ++ fmtD offset]) ∧
    (0 < length → GoMap.get? req.Header "Range" =
      some ["bytes=" ++ fmtD offset ++ "-" ++ fmtD (wrap64 (offset + length - 1))]) ∧
    (0 < length → offset + length - 1 < 2 ^ 63 → GoMap.get? req.Header "Range" =
      some ["bytes=" ++ fmtD offset ++ "-" ++ fmtD (offset + length - 1)]) := by
  have hget := range_header_of_sent env b key offset length req hsent
  have hzero : length = 0 → byteRange offset length =
      "bytes=" ++ fmtD offset ++ "-" ++ fmtD offset := by
    intro h0
    unfold byteRange
    have : ¬ (offset > 0 ∧ length < 0) := by omega
    simp [this, h0]
  have hpos : 0 < length → byteRange offset length =
      "bytes=" ++ fmtD offset ++ "-" ++ fmtD (wrap64 (offset + length - 1)) := by
    intro hp
    unfold byteRange
    have h1 : ¬ (offset > 0 ∧ length < 0) := by omega
    have h2 : ¬ length = 0 := by omega
    have h3 : length ≥ 0 := hlen
    rw [if_neg h1, if_neg h2, if_pos h3, wrap64_add_sub_one]
  refine ⟨fun h0 => ?_, fun hp => ?_, fun hp hsmall => ?_⟩
  · rw [hget, hzero h0, String.append_assoc, String.append_assoc]
    rw [if_pos (bytes_append_ne_empty _)]
  · rw [hget, hpos hp, String.append_assoc, String.append_assoc]
    rw [if_pos (bytes_append_ne_empty _)]
  · rw [hget, hpos hp, wrap64_of_range _ (by omega) hsmall, String.append_assoc,
      String.append_assoc]
    rw [if_pos (bytes_append_ne_empty _)]

/-- C5, at the range the download test asks for: offset 1024, length 2048. -/
theorem range_header_for_nonnegative_length_witness :
    GoMap.get? (testRequest "GET"
        [("User-Agent", ["QiniuGoCloudDevKodoBlob/0.1.0"]),
         ("Range", ["bytes=1024-3071"])]).Header "Range" =
      some ["bytes=" ++ fmtD 1024 ++ "-" ++ fmtD (1024 + 2048 - 1)] :=
  (range_header_for_nonnegative_length (testEnv (.ok (testResponse 206 .NoBody))) testBucket
    "existed-file" 1024 2048 _ (by decide) (by decide) (by decide)).2.2 (by decide) (by decide)

/-- C7: for every length < 0, the request `NewRangeReader` sends carries the open-ended
`Range` header `bytes=<offset>-` when offset > 0, and when offset <= 0 it carries no `Range`
header at all: its only header is `User-Agent`. -/
theorem range_header_for_negative_length (env : Env) (b : bucket) (key : String)
    (offset length : Int) (req : Request) (hlen : length < 0)
    (hsent : Event.httpDo req ∈ (bucket.NewRangeReader env b key offset length).2) :
    (0 < offset → GoMap.get? req.Header "Range" = some ["bytes=" ++ fmtD offset ++ "-"]) ∧
    (offset ≤ 0 → GoMap.get? req.Header "Range" = none ∧
      req.Header = [("User-Agent", [env.userAgent])]) := by
  have hhdr := createDownloadRequest_header env b "GET" key _ threeMinutes req
    (NewRangeReader_sent env b key offset length req hsent)
  refine ⟨fun hp => ?_, fun hnp => ?_⟩
  · have hbr : byteRange offset length = "bytes=" ++ fmtD offset ++ "-" := by
      unfold byteRange
      rw [if_pos ⟨hp, hlen⟩]
    rw [hbr, String.append_assoc, if_pos (bytes_append_ne_empty _)] at hhdr
    rw [hhdr, String.append_assoc]
    simp [GoMap.get?]
  · have hbr : byteRange offset length = "" := by
      unfold byteRange
      have h1 : ¬ (offset > 0 ∧ length < 0) := by omega
      have h2 : ¬ length = 0 := by omega
      have h3 : ¬ length ≥ 0 := by omega
      rw [if_neg h1, if_neg h2, if_neg h3]
    rw [hbr] at hhdr
    simp only [ne_eq, not_true_eq_false, if_false] at hhdr
    rw [hhdr]
    simp [GoMap.get?]

/-- C7, at offset 1024 with length -1 (read to the end), and at offset 0 with length -1 (the
whole object, as the download test reads it). -/
theorem range_header_for_negative_length_witness :
    GoMap.get? (testRequest "GET"
        [("User-Agent", ["QiniuGoCloudDevKodoBlob/0.1.0"]),
         ("Range", ["bytes=1024-"])]).Header "Range" = some ["bytes=" ++ fmtD 1024 ++ "-"] ∧
    GoMap.get? (testRequest "GET"
        [("User-Agent", ["QiniuGoCloudDevKodoBlob/0.1.0"])]).Header "Range" = none :=
  ⟨(range_header_for_negative_length (testEnv (.ok (testResponse 200 .NoBody))) testBucket
      "existed-file" 1024 (-1) _ (by decide) (by decide)).1 (by decide),
   ((range_header_for_negative_length (testEnv (.ok (testResponse 200 .NoBody))) testBucket
      "existed-file" 0 (-1) _ (by decide) (by decide)).2 (by decide)).1⟩

/-- C6: when `NewRangeReader` is called with length 0, sends the request `req` and gets a
response with status 200 or 206, then `req` carries `Range: bytes=<offset>-<offset>`, the body
of the response is closed, and the reader returned holds `http.NoBody`: every `Read`, the first
included, yields no byte and `io.EOF`, whatever body the response had. -/
theorem zero_length_read_is_empty (env : Env) (b : bucket) (key : String) (offset : Int)
    (req : Request) (resp : Response)
    (hsent : Event.httpDo req ∈ (bucket.NewRangeReader env b key offset 0).2)
    (hdo : env.Do req = .ok resp)
    (hstatus : resp.StatusCode = 200 ∨ resp.StatusCode = 206) :
    GoMap.get? req.Header "Range" = some ["bytes=" ++ fmtD offset ++ "-" ++ fmtD offset] ∧
    ∃ attrs ev, bucket.attributes env resp = .ok attrs ∧
      bucket.NewRangeReader env b key offset 0 =
        (.ok { attributes := attrs, body := .NoBody }, ev ++ [.httpDo req, .bodyClose]) ∧
      ∀ n, reader.Read { attributes := attrs, body := .NoBody } n =
        (([], some .EOF), { attributes := attrs, body := .NoBody }) := by
  constructor
  · rw [range_header_of_sent env b key offset 0 req hsent]
    have hbr : byteRange offset 0 = "bytes=" ++ fmtD offset ++ "-" ++ fmtD offset := by
      unfold byteRange
      have : ¬ (offset > 0 ∧ (0 : Int) < 0) := by omega
      simp [this]
    rw [hbr, String.append_assoc, String.append_assoc, if_pos (bytes_append_ne_empty _)]
  · have hreq := NewRangeReader_sent env b key offset 0 req hsent
    cases hc : bucket.createDownloadRequest env b "GET" key (byteRange offset 0)
        threeMinutes with
    | mk res ev =>
      rw [hc] at hreq
      simp only [] at hreq
      subst hreq
      cases hattr : bucket.attributes env resp with
      | error err => simp [bucket.attributes] at hattr
      | ok attrs =>
        refine ⟨attrs, ev, rfl, ?_, fun n => rfl⟩
        have hattr2 : bucket.attributes env { resp with Body := .NoBody } = .ok attrs := hattr
        have hs : ¬ (resp.StatusCode ≠ 200 ∧ resp.StatusCode ≠ 206) := by
          rcases hstatus with h | h <;> simp [h]
        unfold bucket.NewRangeReader
        rw [hc]
        simp only [hdo, if_true]
        rw [if_neg hs, hattr2]
        simp

/-- C6, at a response with status 206 whose body holds three bytes. -/
theorem zero_length_read_is_empty_witness :
    ∃ attrs ev, bucket.attributes (testEnv (.ok (testResponse 206 (.stream [7, 8, 9] none))))
        (testResponse 206 (.stream [7, 8, 9] none)) = .ok attrs ∧
      bucket.NewRangeReader (testEnv (.ok (testResponse 206 (.stream [7, 8, 9] none))))
          testBucket "existed-file" 5 0 =
        (.ok { attributes := attrs, body := .NoBody },
          ev ++ [.httpDo (testRequest "GET" [("User-Agent", ["QiniuGoCloudDevKodoBlob/0.1.0"]),
            ("Range", ["bytes=5-5"])]), .bodyClose]) ∧
      ∀ n, reader.Read { attributes := attrs, body := .NoBody } n =
        (([], some .EOF), { attributes := attrs, body := .NoBody }) :=
  (zero_length_read_is_empty (testEnv (.ok (testResponse 206 (.stream [7, 8, 9] none))))
    testBucket "existed-file" 5 _ _ (by decide) rfl (by decide)).2

/-- C8 (counterexample): the response has status 200, but closing its body reports an error,
and `Attributes` fails with that error. -/
theorem attributes_fails_on_status_200_counterexample :
    (testResponse 200 (.stream [] (some (.external "close failed")))).StatusCode = 200 ∧
    bucket.Attributes
        (testEnv (.ok (testResponse 200 (.stream [] (some (.external "close failed"))))))
        testBucket "existed-file" =
      (.error (.external "close failed"),
       [.getRegion "ak" "bucket" false,
        .httpDo (testRequest "HEAD" [("User-Agent", ["QiniuGoCloudDevKodoBlob/0.1.0"])]),
        .bodyClose]) := by
  constructor <;> rfl

/-- C8 (amended): for every HTTP status code `c` of the response, `NewRangeReader` succeeds
exactly when `c` is 200 or 206 and otherwise fails with `ErrStatusCode{c}`; `Attributes` fails
with the error of closing the response body when there is one, whatever `c` is, and otherwise
succeeds exactly when `c` is 200 and fails with `ErrStatusCode{c}` when it is not; the message
of `ErrStatusCode{c}` is `kodoblob: unexpected status code <c>`. -/
theorem status_code_decides_result (env : Env) (b : bucket) (key : String)
    (offset length c : Int) :
    (∀ req ev resp,
      bucket.createDownloadRequest env b "GET" key (byteRange offset length) threeMinutes =
        (.ok req, ev) →
      env.Do req = .ok resp → resp.StatusCode = c →
      ((∃ r, (bucket.NewRangeReader env b key offset length).1 = .ok r) ↔ (c = 200 ∨ c = 206)) ∧
      (¬ (c = 200 ∨ c = 206) →
        (bucket.NewRangeReader env b key offset length).1 = .error (.statusCode { code := c }))) ∧
    (∀ req ev resp,
      bucket.createDownloadRequest env b "HEAD" key "" threeMinutes = (.ok req, ev) →
      env.Do req = .ok resp → resp.StatusCode = c →
      (∀ e, resp.Body.Close = some e → (bucket.Attributes env b key).1 = .error e) ∧
      (resp.Body.Close = none →
        ((∃ a, (bucket.Attributes env b key).1 = .ok a) ↔ c = 200) ∧
        (c ≠ 200 → (bucket.Attributes env b key).1 = .error (.statusCode { code := c })))) ∧
    ErrStatusCode.Error { code := c } = "kodoblob: unexpected status code " ++ fmtD c := by
  refine ⟨?_, ?_, rfl⟩
  · intro req ev resp hreq hdo hc
    subst hc
    unfold bucket.NewRangeReader
    rw [hreq]
    simp only [hdo]
    by_cases hs : resp.StatusCode ≠ 200 ∧ resp.StatusCode ≠ 206
    · have hnot : ¬ (resp.StatusCode = 200 ∨ resp.StatusCode = 206) := by tauto
      by_cases hl : length = 0 <;> simp [hl, hs, hnot]
    · have hyes : resp.StatusCode = 200 ∨ resp.StatusCode = 206 := by
        by_cases h2 : resp.StatusCode = 200
        · exact Or.inl h2
        · by_cases h3 : resp.StatusCode = 206
          · exact Or.inr h3
          · exact absurd ⟨h2, h3⟩ hs
      by_cases hl : length = 0 <;> simp [hl, hs, hyes, bucket.attributes]
  · intro req ev resp hreq hdo hc
    subst hc
    unfold bucket.Attributes
    rw [hreq]
    simp only [hdo]
    constructor
    · intro e he
      simp [he]
    · intro hnone
      by_cases hs : resp.StatusCode = 200 <;> simp [hnone, hs, bucket.attributes]

/-- C8, at the status 404 of the test for a missing object, and at 206 for a range read. -/
theorem status_code_decides_result_witness :
    (bucket.Attributes (testEnv (.ok (testResponse 404 .NoBody))) testBucket "existed-file").1 =
      .error (.statusCode { code := 404 }) ∧
    ErrStatusCode.Error { code := 404 } = "kodoblob: unexpected status code 404" ∧
    (∃ r, (bucket.NewRangeReader (testEnv (.ok (testResponse 206 .NoBody))) testBucket
      "existed-file" 1024 2048).1 = .ok r) :=
  ⟨((status_code_decides_result (testEnv (.ok (testResponse 404 .NoBody))) testBucket
      "existed-file" 0 0 404).2.1 _ _ _ rfl rfl rfl).2 rfl |>.2 (by decide),
   by decide,
   ((status_code_decides_result (testEnv (.ok (testResponse 206 .NoBody))) testBucket
      "existed-file" 1024 2048 206).1 _ _ _ rfl rfl rfl).1.2 (Or.inr rfl)⟩

/-! ## Metadata on the wire -/

theorem GoMap.get?_set_eq {β : Type} (m : GoMap β) (k : String) (v : β) :
    GoMap.get? (GoMap.set m k v) k = some v := by
  induction m with
  | nil => simp [GoMap.set, GoMap.get?]
  | cons a t ih =>
    obtain ⟨k1, v1⟩ := a
    by_cases h : k1 = k
    · simp [GoMap.set, GoMap.get?, h]
    · simp [GoMap.set, GoMap.get?, h, ih]

theorem GoMap.get?_set_ne {β : Type} (m : GoMap β) (k k2 : String) (v : β) (hne : k ≠ k2) :
    GoMap.get? (GoMap.set m k v) k2 = GoMap.get? m k2 := by
  induction m with
  | nil => simp [GoMap.set, GoMap.get?, hne]
  | cons a t ih =>
    obtain ⟨k1, v1⟩ := a
    by_cases h : k1 = k
    · subst h; simp [GoMap.set, GoMap.get?, hne]
    · by_cases h2 : k1 = k2
      · subst h2; simp [GoMap.set, GoMap.get?, h]
      · simp [GoMap.set, GoMap.get?, h, h2, ih]

theorem GoMap.set_of_absent {β : Type} (m : GoMap β) (k : String) (v : β)
    (h : k ∉ m.map Prod.fst) : GoMap.set m k v = m ++ [(k, v)] := by
  induction m with
  | nil => rfl
  | cons a t ih =>
    obtain ⟨k1, v1⟩ := a
    simp only [List.map_cons, List.mem_cons, not_or] at h
    have hne : ¬ k1 = k := fun e => h.1 e.symm
    simp [GoMap.set, hne, ih h.2]

theorem wire_name_injective (a b : String) (h : "x-qn-meta-" ++ a = "x-qn-meta-" ++ b) :
    a = b := by
  have hd := congrArg String.data h
  simp only [String.data_append, List.append_cancel_left_eq] at hd
  exact String.ext hd

theorem convertMetadataToParams_fold (m acc : GoMap String)
    (hnodup : (m.map Prod.fst).Nodup)
    (hdisj : ∀ kv ∈ m, "x-qn-meta-" ++ kv.1 ∉ acc.map Prod.fst) :
    m.foldl (fun params kv => GoMap.set params ("x-qn-meta-" ++ kv.1) kv.2) acc =
      acc ++ m.map (fun kv => ("x-qn-meta-" ++ kv.1, kv.2)) := by
  induction m generalizing acc with
  | nil => simp
  | cons a t ih =>
    simp only [List.map_cons, List.nodup_cons] at hnodup
    simp only [List.foldl_cons]
    rw [GoMap.set_of_absent acc _ _ (hdisj a (List.mem_cons_self _ _))]
    rw [ih _ hnodup.2]
    · simp
    · intro kv hkv hmem
      simp only [List.map_append, List.map_cons, List.map_nil, List.mem_append,
        List.mem_singleton] at hmem
      rcases hmem with hmem | hmem
      · exact hdisj kv (List.mem_cons_of_mem _ hkv) hmem
      · have := wire_name_injective _ _ hmem
        exact hnodup.1 (this ▸ List.mem_map_of_mem Prod.fst hkv)

theorem convertMetadataToParams_of_nodup (m : GoMap String) (hnodup : (m.map Prod.fst).Nodup) :
    convertMetadataToParams m = m.map (fun kv => ("x-qn-meta-" ++ kv.1, kv.2)) := by
  unfold convertMetadataToParams
  rw [convertMetadataToParams_fold m [] hnodup (by simp)]
  simp

theorem ToLower_wire_name (table : Char → Char) (k : String) :
    ToLower table ("x-qn-meta-" ++ k) = "x-qn-meta-" ++ ToLower table k := by
  apply String.ext
  simp only [ToLower, String.data_append, List.map_append]
  rfl

theorem HasPrefix_wire_name (s : String) : HasPrefix ("x-qn-meta-" ++ s) "x-qn-meta-" = true := by
  simp [HasPrefix, String.data_append]

theorem TrimPrefix_wire_name (s : String) : TrimPrefix ("x-qn-meta-" ++ s) "x-qn-meta-" = s := by
  unfold TrimPrefix
  rw [if_pos (HasPrefix_wire_name s)]
  apply String.ext
  simp [String.data_append]

theorem extractMetadata_get? (table : Char → Char) (headers : GoMap (List String))
    (acc : GoMap String) (K v : String)
    (hval : ∀ kv ∈ headers, ∀ v0 rest, kv.2 = v0 :: rest →
      HasPrefix (ToLower table kv.1) "x-qn-meta-" = true →
      TrimPrefix (ToLower table kv.1) "x-qn-meta-" = K → v0 = v)
    (hex : (∃ kv ∈ headers, ∃ rest, kv.2 = v :: rest ∧
        HasPrefix (ToLower table kv.1) "x-qn-meta-" = true ∧
        TrimPrefix (ToLower table kv.1) "x-qn-meta-" = K) ∨ GoMap.get? acc K = some v) :
    GoMap.get? (headers.foldl (fun metadata kv =>
        match kv.2 with
        | v0 :: _ =>
          if HasPrefix (ToLower table kv.1) "x-qn-meta-" then
            GoMap.set metadata (TrimPrefix (ToLower table kv.1) "x-qn-meta-") v0
          else metadata
        | [] => metadata) acc) K = some v := by
  induction headers generalizing acc with
  | nil =>
    rcases hex with ⟨kv, hkv, _⟩ | h
    · simp at hkv
    · exact h
  | cons a t ih =>
    simp only [List.foldl_cons]
    apply ih
    · intro kv hkv; exact hval kv (List.mem_cons_of_mem _ hkv)
    · by_cases ht : ∃ kv ∈ t, ∃ rest, kv.2 = v :: rest ∧
          HasPrefix (ToLower table kv.1) "x-qn-meta-" = true ∧
          TrimPrefix (ToLower table kv.1) "x-qn-meta-" = K
      · exact Or.inl ht
      · right
        have hacc : GoMap.get? acc K = some v ∨ ∃ rest, a.2 = v :: rest ∧
            HasPrefix (ToLower table a.1) "x-qn-meta-" = true ∧
            TrimPrefix (ToLower table a.1) "x-qn-meta-" = K := by
          rcases hex with ⟨kv, hkv, hk⟩ | h
          · rcases List.mem_cons.1 hkv with rfl | hkv
            · exact Or.inr hk
            · exact absurd ⟨kv, hkv, hk⟩ ht
          · exact Or.inl h
        cases hvals : a.2 with
        | nil =>
          rcases hacc with h | ⟨rest, h, _⟩
          · exact h
          · rw [hvals] at h; simp at h
        | cons v0 rest =>
          simp only []
          by_cases hp : HasPrefix (ToLower table a.1) "x-qn-meta-" = true
          · rw [if_pos hp]
            by_cases hk : TrimPrefix (ToLower table a.1) "x-qn-meta-" = K
            · rw [hk, hval a (List.mem_cons_self _ _) v0 rest hvals hp hk]
              exact GoMap.get?_set_eq _ _ _
            · rw [GoMap.get?_set_ne _ _ _ _ hk]
              rcases hacc with h | ⟨_, _, _, h⟩
              · exact h
              · exact absurd h hk
          · rw [if_neg hp]
            rcases hacc with h | ⟨_, _, h, _⟩
            · exact h
            · exact absurd h hp

theorem value_unique_of_nodup {β : Type} (m : List (String × β)) (k : String) (v v2 : β)
    (hnodup : (m.map Prod.fst).Nodup) (h1 : (k, v) ∈ m) (h2 : (k, v2) ∈ m) : v = v2 := by
  induction m with
  | nil => simp at h1
  | cons a t ih =>
    simp only [List.map_cons, List.nodup_cons] at hnodup
    rcases List.mem_cons.1 h1 with e1 | h1
    · rcases List.mem_cons.1 h2 with e2 | h2
      · have := e1.trans e2.symm
        simpa using this
      · exact absurd (List.mem_map_of_mem Prod.fst h2) (by rw [← e1] at hnodup; exact hnodup.1)
    · rcases List.mem_cons.1 h2 with e2 | h2
      · exact absurd (List.mem_map_of_mem Prod.fst h1) (by rw [← e2] at hnodup; exact hnodup.1)
      · exact ih hnodup.2 h1 h2

theorem mem_wire_headers (m : GoMap String) (hnodup : (m.map Prod.fst).Nodup)
    (kv : String × List String) :
    kv ∈ headersOfParams (convertMetadataToParams m) ↔
      ∃ e ∈ m, kv = ("x-qn-meta-" ++ e.1, [e.2]) := by
  rw [convertMetadataToParams_of_nodup m hnodup]
  simp only [headersOfParams, List.map_map, List.mem_map, Function.comp]
  constructor
  · rintro ⟨e, he, rfl⟩; exact ⟨e, he, rfl⟩
  · rintro ⟨e, he, rfl⟩; exact ⟨e, he, rfl⟩

/-- C9 (counterexample): the metadata `{"A": "v"}` goes out as `x-qn-meta-A`, and reading a
header with exactly that name yields `{"a": "v"}`, which has no entry for `A`. -/
theorem metadata_upper_case_key_counterexample :
    convertMetadataToParams [("A", "v")] = [("x-qn-meta-A", "v")] ∧
    (bucket.attributes (testEnv (.error .EOF))
      { testResponse 200 .NoBody with
        Header := headersOfParams (convertMetadataToParams [("A", "v")]) }).map
      (fun attrs => (attrs.Metadata, GoMap.get? attrs.Metadata "A")) =
      .ok ([("a", "v")], none) := by
  constructor <;> rfl

/-- C9 (amended): for every user metadata map `m` and every entry `k -> v` of it whose
lower-cased key no other key of `m` lower-cases to: after `convertMetadataToParams` and the
extraction in `attributes` on headers with exactly those names and values, visited in any
order, the `Metadata` map contains `ToLower(k) -> v`; so it contains `k -> v` when `k` is
already in lower case. -/
theorem metadata_round_trip (env : Env) (response : Response) (m : GoMap String)
    (k v : String) (hnodup : (m.map Prod.fst).Nodup) (hmem : (k, v) ∈ m)
    (hheader : response.Header.Perm (headersOfParams (convertMetadataToParams m)))
    (hunique : ∀ kv ∈ m, ToLower env.unicodeLower kv.1 = ToLower env.unicodeLower k → kv.1 = k) :
    ∃ attrs, bucket.attributes env response = .ok attrs ∧
      GoMap.get? attrs.Metadata (ToLower env.unicodeLower k) = some v ∧
      (ToLower env.unicodeLower k = k → GoMap.get? attrs.Metadata k = some v) := by
  have hget : GoMap.get? (extractMetadata env.unicodeLower response.Header)
      (ToLower env.unicodeLower k) = some v := by
    unfold extractMetadata
    apply extractMetadata_get?
    · intro kv hkv v0 rest hvals _ hk
      obtain ⟨e, he, rfl⟩ := (mem_wire_headers m hnodup kv).1 (hheader.mem_iff.1 hkv)
      simp only [List.cons.injEq] at hvals
      rw [ToLower_wire_name, TrimPrefix_wire_name] at hk
      have hk1 := hunique e he hk
      have he2 : (k, e.2) ∈ m := by rw [← hk1]; exact he
      rw [← hvals.1]
      exact (value_unique_of_nodup m k v e.2 hnodup hmem he2).symm
    · left
      refine ⟨("x-qn-meta-" ++ k, [v]), ?_, [], rfl, ?_, ?_⟩
      · exact hheader.mem_iff.2 ((mem_wire_headers m hnodup _).2 ⟨(k, v), hmem, rfl⟩)
      · rw [ToLower_wire_name]; exact HasPrefix_wire_name _
      · show TrimPrefix (ToLower env.unicodeLower ("x-qn-meta-" ++ k)) "x-qn-meta-" = _
        rw [ToLower_wire_name, TrimPrefix_wire_name]
  refine ⟨_, rfl, hget, fun hlow => ?_⟩
  have := hget
  rw [hlow] at this
  exact this

/-- C9, at the metadata of the upload test, `data-a -> value-1` and `data-b -> value-2`, with
the headers visited in the opposite order. -/
theorem metadata_round_trip_witness :
    ∃ attrs, bucket.attributes (testEnv (.error .EOF))
        { testResponse 200 .NoBody with
          Header := [("x-qn-meta-data-b", ["value-2"]), ("x-qn-meta-data-a", ["value-1"])] } =
        .ok attrs ∧
      GoMap.get? attrs.Metadata (ToLower id "data-b") = some "value-2" ∧
      (ToLower id "data-b" = "data-b" → GoMap.get? attrs.Metadata "data-b" = some "value-2") :=
  metadata_round_trip (testEnv (.error .EOF)) _ [("data-a", "value-1"), ("data-b", "value-2")]
    "data-b" "value-2" (by decide) (by decide) (List.Perm.swap _ _ _) (by decide)

/-! ## Listing -/

theorem bytesLess_asymm (a b : List Nat) (h : bytesLess a b = true) : bytesLess b a = false := by
  induction a generalizing b with
  | nil => cases b <;> simp [bytesLess] at h ⊢
  | cons x xs ih =>
    cases b with
    | nil => simp [bytesLess] at h
    | cons y ys =>
      simp only [bytesLess, Bool.or_eq_true, decide_eq_true_eq, Bool.and_eq_true,
        beq_iff_eq] at h
      simp only [bytesLess, Bool.or_eq_false_iff, decide_eq_false_iff_not,
        Bool.and_eq_false_imp, beq_iff_eq]
      rcases h with h | ⟨h1, h2⟩
      · exact ⟨by omega, fun e => by omega⟩
      · exact ⟨by omega, fun _ => ih ys h2⟩

theorem bytesLess_negtrans (a b c : List Nat) (h1 : bytesLess b a = false)
    (h2 : bytesLess c b = false) : bytesLess c a = false := by
  induction c generalizing a b with
  | nil =>
    cases a with
    | nil => simp [bytesLess]
    | cons x xs =>
      cases b with
      | nil => simp [bytesLess] at h1
      | cons y ys => simp [bytesLess] at h2
  | cons z zs ih =>
    cases a with
    | nil => simp [bytesLess]
    | cons x xs =>
      cases b with
      | nil => simp [bytesLess] at h1
      | cons y ys =>
        simp only [bytesLess, Bool.or_eq_false_iff, decide_eq_false_iff_not,
          Bool.and_eq_false_imp, beq_iff_eq] at h1 h2 ⊢
        refine ⟨by omega, fun e => ?_⟩
        have hyx : y = x := by omega
        have hzy : z = y := by omega
        exact ih xs ys (h1.2 hyx) (h2.2 hzy)

theorem insertLeft_perm {α : Type} (less : α → α → Bool) (x : α) (l : List α) :
    (insertLeft less x l).Perm (x :: l) := by
  induction l with
  | nil => exact List.Perm.refl _
  | cons y ys ih =>
    unfold insertLeft
    split
    · exact (List.Perm.cons y ih).trans (List.Perm.swap x y ys)
    · exact List.Perm.refl _

theorem foldl_insertLeft_perm {α : Type} (less : α → α → Bool) (xs acc : List α) :
    (xs.foldl (fun sorted x => insertLeft less x sorted) acc).Perm (xs ++ acc) := by
  induction xs generalizing acc with
  | nil => exact List.Perm.refl _
  | cons x t ih =>
    simp only [List.foldl_cons]
    refine (ih _).trans ?_
    refine (List.Perm.append_left t (insertLeft_perm less x acc)).trans ?_
    simp

theorem sortSlice_perm {α : Type} (less : α → α → Bool) (xs : List α) :
    (sortSlice less xs).Perm xs := by
  unfold sortSlice
  refine (List.reverse_perm _).trans ?_
  simpa using foldl_insertLeft_perm less xs []

theorem insertLeft_descending {α : Type} (less : α → α → Bool)
    (hasymm : ∀ a b, less a b = true → less b a = false)
    (htrans : ∀ a b c, less b a = false → less c b = false → less c a = false)
    (x : α) (l : List α) (h : l.Pairwise (fun a b => less a b = false)) :
    (insertLeft less x l).Pairwise (fun a b => less a b = false) := by
  induction l with
  | nil => simp [insertLeft]
  | cons y ys ih =>
    rw [List.pairwise_cons] at h
    unfold insertLeft
    split
    · next hxy =>
      rw [List.pairwise_cons]
      refine ⟨fun z hz => ?_, ih h.2⟩
      rcases List.mem_cons.1 ((insertLeft_perm less x ys).mem_iff.1 hz) with rfl | hz
      · exact hasymm _ _ hxy
      · exact h.1 z hz
    · next hxy =>
      have hxy2 : less x y = false := by simpa using hxy
      rw [List.pairwise_cons, List.pairwise_cons]
      refine ⟨fun z hz => ?_, h⟩
      rcases List.mem_cons.1 hz with rfl | hz
      · exact hxy2
      · exact htrans z y x (h.1 z hz) hxy2

theorem sortSlice_sorted {α : Type} (less : α → α → Bool)
    (hasymm : ∀ a b, less a b = true → less b a = false)
    (htrans : ∀ a b c, less b a = false → less c b = false → less c a = false)
    (xs : List α) : (sortSlice less xs).Pairwise (fun a b => less b a = false) := by
  unfold sortSlice
  rw [List.pairwise_reverse]
  suffices hgen : ∀ acc : List α, acc.Pairwise (fun a b => less a b = false) →
      (xs.foldl (fun sorted x => insertLeft less x sorted) acc).Pairwise
        (fun a b => less a b = false) from hgen [] List.Pairwise.nil
  induction xs with
  | nil => intro acc h; exact h
  | cons x t ih =>
    intro acc h
    simp only [List.foldl_cons]
    exact ih _ (insertLeft_descending less hasymm htrans x acc h)

/-- C10: for every remote listing response with common prefixes `P` and items `I`, the
`Objects` of the page `ListPaged` returns are a permutation of one directory entry per element
of `P` (`IsDir` true, `Key` the prefix) followed by one file entry per element of `I` (`IsDir`
false, `Key`, `Size` and `MD5` copied from the item), so there are `|P| + |I|` of them, and
they are in ascending order of key under byte-wise comparison: no entry has a key less than
the key of an entry before it. -/
theorem list_page_is_sorted_permutation (env : Env) (b : bucket)
    (opts : Option driver.ListOptions) (ret : ListFilesRet) (hasNext : Bool)
    (hlist : env.ListFilesWithContext b.name (listInputOptions opts) = .ok (ret, hasNext)) :
    ∃ page, (bucket.ListPaged env b opts).1 = .ok page ∧
      page.Objects.Perm (ret.CommonPrefixes.map dirObject ++ ret.Items.map fileObject) ∧
      page.Objects.length = ret.CommonPrefixes.length + ret.Items.length ∧
      page.Objects.Pairwise (fun x y => stringLess y.Key x.Key = false) ∧
      (∀ p, (dirObject p).IsDir = true ∧ (dirObject p).Key = p) ∧
      (∀ item, (fileObject item).IsDir = false ∧ (fileObject item).Key = item.Key ∧
        (fileObject item).Size = item.Fsize ∧ (fileObject item).MD5 = bytesOf item.Md5) := by
  have hasymm : ∀ x y : driver.ListObject,
      stringLess x.Key y.Key = true → stringLess y.Key x.Key = false :=
    fun x y h => bytesLess_asymm _ _ h
  have htrans : ∀ x y z : driver.ListObject, stringLess y.Key x.Key = false →
      stringLess z.Key y.Key = false → stringLess z.Key x.Key = false :=
    fun x y z h1 h2 => bytesLess_negtrans _ _ _ h1 h2
  unfold bucket.ListPaged
  simp only [hlist]
  refine ⟨_, rfl, ?_, ?_, ?_, fun p => ⟨rfl, rfl⟩, fun item => ⟨rfl, rfl, rfl, rfl⟩⟩
  · split
    · exact sortSlice_perm _ _
    · exact List.Perm.refl _
  · split
    · rw [(sortSlice_perm _ _).length_eq]; simp
    · simp
  · split
    · exact sortSlice_sorted _ hasymm htrans _
    · next hlen =>
      have hnil : ret.CommonPrefixes.map dirObject ++ ret.Items.map fileObject = [] := by
        apply List.eq_nil_of_length_eq_zero
        omega
      rw [hnil]
      exact List.Pairwise.nil

/-- C10, at a listing with the common prefixes `c/`, `a/` and the items `data_00001`,
`b/file`: the page lists `a/`, `b/file`, `c/`, `data_00001`. -/
theorem list_page_is_sorted_permutation_witness :
    ∃ page, (bucket.ListPaged (testListEnv true) testBucket none).1 = .ok page ∧
      page.Objects.Perm (testListing.CommonPrefixes.map dirObject ++
        testListing.Items.map fileObject) ∧
      page.Objects.length = testListing.CommonPrefixes.length + testListing.Items.length ∧
      page.Objects.Pairwise (fun x y => stringLess y.Key x.Key = false) ∧
      (∀ p, (dirObject p).IsDir = true ∧ (dirObject p).Key = p) ∧
      (∀ item, (fileObject item).IsDir = false ∧ (fileObject item).Key = item.Key ∧
        (fileObject item).Size = item.Fsize ∧ (fileObject item).MD5 = bytesOf item.Md5) :=
  list_page_is_sorted_permutation (testListEnv true) testBucket none testListing true rfl

/-- C11: for every successful remote listing response, the page `ListPaged` returns has
`NextPageToken` equal to the remote's marker when the remote signals that more results exist,
and empty otherwise.  So a caller that stops at an empty token stops at this page exactly
when the remote reports no more results, the marker that comes with a signal for more being
non-empty. -/
theorem next_page_token_follows_has_next (env : Env) (b : bucket)
    (opts : Option driver.ListOptions) (ret : ListFilesRet) (hasNext : Bool)
    (hlist : env.ListFilesWithContext b.name (listInputOptions opts) = .ok (ret, hasNext)) :
    ∃ page, (bucket.ListPaged env b opts).1 = .ok page ∧
      (hasNext = true → page.NextPageToken = ret.Marker) ∧
      (hasNext = false → page.NextPageToken = "") ∧
      ((hasNext = true → ret.Marker ≠ "") → (page.NextPageToken = "" ↔ hasNext = false)) := by
  unfold bucket.ListPaged
  simp only [hlist]
  refine ⟨_, rfl, ?_, ?_, ?_⟩
  · intro h; simp [h]
  · intro h; simp [h]
  · intro hmarker
    cases hasNext with
    | false => simp
    | true => simpa using hmarker rfl

/-- C11, at a page for which the remote signals more results with the marker `marker_0`. -/
theorem next_page_token_follows_has_next_witness :
    ∃ page, (bucket.ListPaged (testListEnv true) testBucket none).1 = .ok page ∧
      (true = true → page.NextPageToken = "marker_0") ∧
      (true = false → page.NextPageToken = "") ∧
      ((true = true → testListing.Marker ≠ "") → (page.NextPageToken = "" ↔ true = false)) :=
  next_page_token_follows_has_next (testListEnv true) testBucket none testListing true rfl

/-- C12: for every list options value, `ListPaged` makes exactly one remote list call, for
the bucket's name, whose parameters hold the prefix iff it is non-empty, the delimiter iff it
is non-empty, a marker equal to the given page token iff the token is non-empty, and exactly
one limit, equal to `PageSize`, or to 1000 when `PageSize` is 0 or the options are `nil`. -/
theorem list_paged_makes_one_call (env : Env) (b : bucket) (opts : Option driver.ListOptions) :
    (bucket.ListPaged env b opts).2 = [.listFiles b.name (listInputOptions opts)] ∧
    (∀ s, ListInputOption.Prefix s ∈ listInputOptions opts ↔
      ∃ o, opts = some o ∧ o.Prefix = s ∧ s ≠ "") ∧
    (∀ s, ListInputOption.Delimiter s ∈ listInputOptions opts ↔
      ∃ o, opts = some o ∧ o.Delimiter = s ∧ s ≠ "") ∧
    (∀ s, ListInputOption.Marker s ∈ listInputOptions opts ↔
      ∃ o, opts = some o ∧ o.PageToken = s ∧ s ≠ "") ∧
    (∀ n, ListInputOption.Limit n ∈ listInputOptions opts ↔
      n = match opts with
          | some o => if o.PageSize = 0 then 1000 else o.PageSize
          | none => 1000) ∧
    (listInputOptions opts).length =
      match opts with
      | some o => (if o.Prefix ≠ "" then 1 else 0) + (if o.Delimiter ≠ "" then 1 else 0) +
          (if o.PageToken ≠ "" then 1 else 0) + 1
      | none => 1 := by
  refine ⟨?_, ?_, ?_, ?_, ?_, ?_⟩
  · unfold bucket.ListPaged
    simp only []
    split <;> rfl
  · intro s
    cases opts with
    | none => simp [listInputOptions]
    | some o =>
      by_cases h1 : o.Prefix = "" <;> by_cases h2 : o.Delimiter = "" <;>
        by_cases h3 : o.PageToken = "" <;>
        simp [listInputOptions, h1, h2, h3] <;> aesop
  · intro s
    cases opts with
    | none => simp [listInputOptions]
    | some o =>
      by_cases h1 : o.Prefix = "" <;> by_cases h2 : o.Delimiter = "" <;>
        by_cases h3 : o.PageToken = "" <;>
        simp [listInputOptions, h1, h2, h3] <;> aesop
  · intro s
    cases opts with
    | none => simp [listInputOptions]
    | some o =>
      by_cases h1 : o.Prefix = "" <;> by_cases h2 : o.Delimiter = "" <;>
        by_cases h3 : o.PageToken = "" <;>
        simp [listInputOptions, h1, h2, h3] <;> aesop
  · intro n
    cases opts with
    | none => simp [listInputOptions, defaultPageSize]
    | some o =>
      by_cases h1 : o.Prefix = "" <;> by_cases h2 : o.Delimiter = "" <;>
        by_cases h3 : o.PageToken = "" <;> by_cases h4 : o.PageSize = 0 <;>
        simp [listInputOptions, defaultPageSize, h1, h2, h3, h4]
  · cases opts with
    | none => simp [listInputOptions]
    | some o =>
      by_cases h1 : o.Prefix = "" <;> by_cases h2 : o.Delimiter = "" <;>
        by_cases h3 : o.PageToken = "" <;>
        simp [listInputOptions, h1, h2, h3]

theorem ListPaged_objects_perm (env : Env) (b : bucket) (opts : Option driver.ListOptions)
    (ret : ListFilesRet) (hasNext : Bool)
    (hlist : env.ListFilesWithContext b.name (listInputOptions opts) = .ok (ret, hasNext)) :
    ∃ page, (bucket.ListPaged env b opts).1 = .ok page ∧
      page.Objects.Perm (ret.CommonPrefixes.map dirObject ++ ret.Items.map fileObject) ∧
      page.Objects.Pairwise (fun x y => stringLess y.Key x.Key = false) := by
  have hasymm : ∀ x y : driver.ListObject,
      stringLess x.Key y.Key = true → stringLess y.Key x.Key = false :=
    fun x y h => bytesLess_asymm _ _ h
  have htrans : ∀ x y z : driver.ListObject, stringLess y.Key x.Key = false →
      stringLess z.Key y.Key = false → stringLess z.Key x.Key = false :=
    fun x y z h1 h2 => bytesLess_negtrans _ _ _ h1 h2
  unfold bucket.ListPaged
  simp only [hlist]
  refine ⟨_, rfl, ?_, ?_⟩
  · split
    · exact sortSlice_perm _ _
    · exact List.Perm.refl _
  · split
    · exact sortSlice_sorted _ hasymm htrans _
    · next hlen =>
      have hnil : ret.CommonPrefixes.map dirObject ++ ret.Items.map fileObject = [] := by
        apply List.eq_nil_of_length_eq_zero
        omega
      rw [hnil]
      exact List.Pairwise.nil

/-- C13 (counterexample): a call with the delimiter `/` whose remote response holds the
common prefixes `c/`, `a/` and the items `data_00001`, `b/file` returns a page with the two
file entries among the directory entries. -/
theorem list_with_delimiter_returns_files_counterexample :
    (bucket.ListPaged (testListEnv false) testBucket
        (some { Prefix := "", Delimiter := "/", PageToken := "", PageSize := 0 })).1.map
      (fun page => page.Objects.map (fun o => (o.Key, o.IsDir))) =
      .ok [("a/", true), ("b/file", false), ("c/", true), ("data_00001", false)] := by
  rfl

/-- C13 (amended): for every `ListPaged` call made with a non-empty delimiter and every
remote response, the returned page is, in ascending key order, a permutation of one
directory-flagged entry per common prefix and one file entry per item: its directory entries
are exactly those of the common prefixes and its file entries exactly those of the items.  So
when the response holds no items the page contains only directory-flagged entries, one per
common prefix, in ascending key order, and no file entries. -/
theorem list_with_delimiter_without_items (env : Env) (b : bucket) (opts : driver.ListOptions)
    (ret : ListFilesRet) (hasNext : Bool) (hdelim : opts.Delimiter ≠ "")
    (hlist : env.ListFilesWithContext b.name (listInputOptions (some opts)) =
      .ok (ret, hasNext)) :
    ListInputOption.Delimiter opts.Delimiter ∈ listInputOptions (some opts) ∧
    ∃ page, (bucket.ListPaged env b (some opts)).1 = .ok page ∧
      page.Objects.Perm (ret.CommonPrefixes.map dirObject ++ ret.Items.map fileObject) ∧
      page.Objects.length = ret.CommonPrefixes.length + ret.Items.length ∧
      page.Objects.Pairwise (fun x y => stringLess y.Key x.Key = false) ∧
      (page.Objects.filter (fun o => o.IsDir)).Perm (ret.CommonPrefixes.map dirObject) ∧
      (page.Objects.filter (fun o => !o.IsDir)).Perm (ret.Items.map fileObject) ∧
      (∀ p, (dirObject p).IsDir = true ∧ (dirObject p).Key = p) ∧
      (∀ item, (fileObject item).IsDir = false ∧ (fileObject item).Key = item.Key) ∧
      (∀ o ∈ page.Objects, o.IsDir = false → ∃ item ∈ ret.Items, o = fileObject item) ∧
      (ret.Items = [] →
        page.Objects.Perm (ret.CommonPrefixes.map dirObject) ∧
        page.Objects.length = ret.CommonPrefixes.length ∧
        (∀ o ∈ page.Objects, o.IsDir = true) ∧
        page.Objects.Pairwise (fun x y => stringLess y.Key x.Key = false)) := by
  constructor
  · simp [listInputOptions, hdelim]
  · obtain ⟨page, hpage, hperm, hsorted⟩ := ListPaged_objects_perm env b (some opts) ret hasNext hlist
    have hdirs : (ret.CommonPrefixes.map dirObject ++ ret.Items.map fileObject).filter
        (fun o => o.IsDir) = ret.CommonPrefixes.map dirObject := by
      rw [List.filter_append]
      have h1 : (ret.CommonPrefixes.map dirObject).filter (fun o => o.IsDir) =
          ret.CommonPrefixes.map dirObject := by
        apply List.filter_eq_self.2
        intro o ho
        obtain ⟨p, _, rfl⟩ := List.mem_map.1 ho
        rfl
      have h2 : (ret.Items.map fileObject).filter (fun o => o.IsDir) = [] := by
        apply List.filter_eq_nil_iff.2
        intro o ho
        obtain ⟨item, _, rfl⟩ := List.mem_map.1 ho
        simp [fileObject]
      rw [h1, h2, List.append_nil]
    have hfiles : (ret.CommonPrefixes.map dirObject ++ ret.Items.map fileObject).filter
        (fun o => !o.IsDir) = ret.Items.map fileObject := by
      rw [List.filter_append]
      have h1 : (ret.CommonPrefixes.map dirObject).filter (fun o => !o.IsDir) = [] := by
        apply List.filter_eq_nil_iff.2
        intro o ho
        obtain ⟨p, _, rfl⟩ := List.mem_map.1 ho
        simp [dirObject]
      have h2 : (ret.Items.map fileObject).filter (fun o => !o.IsDir) =
          ret.Items.map fileObject := by
        apply List.filter_eq_self.2
        intro o ho
        obtain ⟨item, _, rfl⟩ := List.mem_map.1 ho
        rfl
      rw [h1, h2, List.nil_append]
    refine ⟨page, hpage, hperm, by rw [hperm.length_eq]; simp, hsorted, ?_, ?_,
      fun p => ⟨rfl, rfl⟩, fun item => ⟨rfl, rfl⟩, ?_, ?_⟩
    · exact hdirs ▸ hperm.filter _
    · exact hfiles ▸ hperm.filter _
    · intro o ho hfile
      rcases List.mem_append.1 (hperm.mem_iff.1 ho) with h | h
      · obtain ⟨p, _, rfl⟩ := List.mem_map.1 h
        simp [dirObject] at hfile
      · obtain ⟨item, hitem, rfl⟩ := List.mem_map.1 h
        exact ⟨item, hitem, rfl⟩
    · intro hitems
      rw [hitems] at hperm
      simp only [List.map_nil, List.append_nil] at hperm
      refine ⟨hperm, by rw [hperm.length_eq]; simp, ?_, hsorted⟩
      intro o ho
      obtain ⟨p, _, rfl⟩ := List.mem_map.1 (hperm.mem_iff.1 ho)
      rfl

/-- C13, at the delimiter `/`: with the listing of two common prefixes and two items the page
holds the two directory entries and the two file entries; with the listing of the delimiter
test, common prefixes only, it holds directory entries only. -/
theorem list_with_delimiter_without_items_witness :
    (∃ page, (bucket.ListPaged (testListEnv false) testBucket
        (some { Prefix := "", Delimiter := "/", PageToken := "", PageSize := 0 })).1 =
        .ok page ∧
      page.Objects.Perm (testListing.CommonPrefixes.map dirObject ++
        testListing.Items.map fileObject) ∧
      page.Objects.length = 2 + 2 ∧
      (page.Objects.filter (fun o => !o.IsDir)).Perm (testListing.Items.map fileObject)) ∧
    (∃ page, (bucket.ListPaged
        { testEnv (.error .EOF) with
          ListFilesWithContext := fun _ _ =>
            .ok ({ Marker := "", Items := [], CommonPrefixes := ["data_00001/", "data_00000/"] },
              false) }
        testBucket (some { Prefix := "", Delimiter := "/", PageToken := "", PageSize := 0 })).1 =
        .ok page ∧
      page.Objects.Perm (["data_00001/", "data_00000/"].map dirObject) ∧
      page.Objects.length = 2 ∧
      (∀ o ∈ page.Objects, o.IsDir = true) ∧
      page.Objects.Pairwise (fun x y => stringLess y.Key x.Key = false)) :=
  ⟨(let ⟨page, h1, h2, h3, _, _, h6, _⟩ :=
      (list_with_delimiter_without_items (testListEnv false) testBucket
        { Prefix := "", Delimiter := "/", PageToken := "", PageSize := 0 } testListing false
        (by decide) rfl).2
    ⟨page, h1, h2, h3, h6⟩),
   (let ⟨page, h1, _, _, _, _, _, _, _, _, h10⟩ :=
      (list_with_delimiter_without_items
        { testEnv (.error .EOF) with
          ListFilesWithContext := fun _ _ =>
            .ok ({ Marker := "", Items := [], CommonPrefixes := ["data_00001/", "data_00000/"] },
              false) }
        testBucket { Prefix := "", Delimiter := "/", PageToken := "", PageSize := 0 }
        { Marker := "", Items := [], CommonPrefixes := ["data_00001/", "data_00000/"] } false
        (by decide) rfl).2
    ⟨page, h1, h10 rfl⟩)⟩

/-- C14 (the code at the failing input): an item uploaded at 2023-11-14 22:13:20 UTC has
`PutTime` 17000000000000000, in units of 100 ns, which is 1700000000000000 microseconds
after the epoch; the entry `ListPaged` returns has `ModTime` 170000000000000000 microseconds
after the epoch, a hundred times later: the code multiplies by 10 where the conversion to
microseconds divides by 10. -/
theorem list_mod_time_is_hundredfold :
    (bucket.ListPaged (testListEnv false) testBucket none).1.map
      (fun page => page.Objects.map (fun o => (o.Key, o.ModTime))) =
      .ok [("a/", none), ("b/file", some 170000000000000010), ("c/", none),
           ("data_00001", some 170000000000000000)] ∧
    (170000000000000000 : Int) * 1000 = 100 * (17000000000000000 * 100) ∧
    (∀ item : ListItem, (fileObject item).ModTime = some (wrap64 (item.PutTime * 10))) := by
  refine ⟨by rfl, by decide, fun _ => rfl⟩

/-! ## Download URLs -/

/-- C15: whenever `signDownloadUrl` succeeds: with at least one explicit download domain the
URL is built on the first domain, the region resolver is not called, and the URL is the public
one when the bucket does not force signing and the private one, with deadline `now + expiry`,
when it does; with no explicit domain the resolver was called once, reported a non-empty
source host, and the URL is the private one, with deadline `now + expiry`, built on that
host, qualified by the preferred scheme when it has none, whatever the force-sign flag. -/
theorem sign_download_url_modes (env : Env) (b : bucket) (key : String) (expiry : Int)
    (url : String) (hok : (bucket.signDownloadUrl env b key expiry).1 = .ok url) :
    (∀ first rest, b.downloadDomains = first :: rest →
      (bucket.signDownloadUrl env b key expiry).2 = [] ∧
      (b.willSignDownloadUrl = false → url = env.MakePublicURLv2 first.String key) ∧
      (b.willSignDownloadUrl = true → url =
        env.MakePrivateURLv2 b.credentials first.String key
          ((env.now + expiry) / 1000000000))) ∧
    (b.downloadDomains = [] →
      (bucket.signDownloadUrl env b key expiry).2 =
        [.getRegion b.credentials.AccessKey b.name b.preferHttps] ∧
      ∃ region endpoint,
        env.GetRegionWithOptions b.credentials.AccessKey b.name b.preferHttps = .ok region ∧
        region.IoSrcHost ≠ "" ∧
        env.urlParse
          (if HasPrefix region.IoSrcHost "http://" = true ∨
              HasPrefix region.IoSrcHost "https://" = true then region.IoSrcHost
           else if b.preferHttps = true then "https://" ++ region.IoSrcHost
           else "http://" ++ region.IoSrcHost) = .ok endpoint ∧
        url = env.MakePrivateURLv2 b.credentials endpoint.String key
          ((env.now + expiry) / 1000000000)) := by
  constructor
  · intro first rest hdom
    unfold bucket.signDownloadUrl at hok ⊢
    rw [hdom] at hok ⊢
    simp only [Except.ok.injEq] at hok
    refine ⟨rfl, fun h => ?_, fun h => ?_⟩
    · rw [← hok]; simp [makeDownloadUrl, h]
    · rw [← hok]; simp [makeDownloadUrl, h]
  · intro hdom
    unfold bucket.signDownloadUrl at hok ⊢
    rw [hdom] at hok ⊢
    simp only [] at hok ⊢
    cases hreg : env.GetRegionWithOptions b.credentials.AccessKey b.name b.preferHttps with
    | error err => rw [hreg] at hok; simp at hok
    | ok region =>
      rw [hreg] at hok
      simp only [] at hok ⊢
      by_cases hempty : region.IoSrcHost = ""
      · rw [if_pos hempty] at hok; simp at hok
      · rw [if_neg hempty] at hok ⊢
        have hhost : (if (!HasPrefix region.IoSrcHost "http://" &&
              !HasPrefix region.IoSrcHost "https://") = true then
              (if b.preferHttps = true then "https://" ++ region.IoSrcHost
               else "http://" ++ region.IoSrcHost)
            else region.IoSrcHost) =
            (if HasPrefix region.IoSrcHost "http://" = true ∨
                HasPrefix region.IoSrcHost "https://" = true then region.IoSrcHost
             else if b.preferHttps = true then "https://" ++ region.IoSrcHost
             else "http://" ++ region.IoSrcHost) := by
          cases HasPrefix region.IoSrcHost "http://" <;>
            cases HasPrefix region.IoSrcHost "https://" <;> simp
        rw [hhost] at hok ⊢
        cases hparse : env.urlParse
            (if HasPrefix region.IoSrcHost "http://" = true ∨
                HasPrefix region.IoSrcHost "https://" = true then region.IoSrcHost
             else if b.preferHttps = true then "https://" ++ region.IoSrcHost
             else "http://" ++ region.IoSrcHost) with
        | error err => rw [hparse] at hok; simp at hok
        | ok endpoint =>
          rw [hparse] at hok
          simp only [Except.ok.injEq] at hok
          refine ⟨?_, region, endpoint, rfl, hempty, hparse, ?_⟩
          · rfl
          · rw [← hok]; simp [makeDownloadUrl]

/-- C15, at a bucket with explicit domains that does not force signing, and at the bucket of
the tests, which has none. -/
theorem sign_download_url_modes_witness :
    (bucket.signDownloadUrl (testEnv (.error .EOF)) (testDomainBucket false) "existed-file"
        threeMinutes = (.ok "http://cdn.example.com/existed-file", [])) ∧
    (bucket.signDownloadUrl (testEnv (.error .EOF)) testBucket "existed-file" threeMinutes =
        (.ok "http://iosrc.example.com/existed-file?e=180&token=t",
         [.getRegion "ak" "bucket" false])) ∧
    ("http://cdn.example.com/existed-file" =
      (testEnv (.error .EOF)).MakePublicURLv2 "http://cdn.example.com" "existed-file") :=
  ⟨by rfl, by rfl,
   ((sign_download_url_modes (testEnv (.error .EOF)) (testDomainBucket false) "existed-file"
      threeMinutes "http://cdn.example.com/existed-file" (by rfl)).1 _ _ rfl).2.1 rfl⟩

theorem signDownloadUrl_no_source (env : Env) (b : bucket) (key : String) (expiry : Int)
    (region : Region) (hdom : b.downloadDomains = [])
    (hreg : env.GetRegionWithOptions b.credentials.AccessKey b.name b.preferHttps = .ok region)
    (hsrc : region.IoSrcHost = "") :
    bucket.signDownloadUrl env b key expiry =
      (.error .ErrNoDownloadDomain, [.getRegion b.credentials.AccessKey b.name b.preferHttps]) := by
  unfold bucket.signDownloadUrl
  rw [hdom]
  simp only [hreg, hsrc, if_true]

/-- C16: for every bucket with no explicit download domain, every key and every expiry: if
region resolution succeeds but reports an empty source endpoint, `signDownloadUrl` returns
the empty URL and `ErrNoDownloadDomain`; `SignedURL` for GET returns the same, and
`Attributes` and `NewRangeReader` fail with `ErrNoDownloadDomain`; in all four the call of
the region resolver is the only thing done, so no download request is issued. -/
theorem no_source_endpoint_is_an_error (env : Env) (b : bucket) (key : String)
    (expiry offset length : Int) (region : Region) (hdom : b.downloadDomains = [])
    (hreg : env.GetRegionWithOptions b.credentials.AccessKey b.name b.preferHttps = .ok region)
    (hsrc : region.IoSrcHost = "") :
    urlResult (bucket.signDownloadUrl env b key expiry).1 = ("", some .ErrNoDownloadDomain) ∧
    (bucket.signDownloadUrl env b key expiry).2 =
      [.getRegion b.credentials.AccessKey b.name b.preferHttps] ∧
    urlResult (bucket.SignedURL env b key { Method := "GET", Expiry := expiry }).1 =
      ("", some .ErrNoDownloadDomain) ∧
    (bucket.SignedURL env b key { Method := "GET", Expiry := expiry }).2 =
      [.getRegion b.credentials.AccessKey b.name b.preferHttps] ∧
    bucket.Attributes env b key =
      (.error .ErrNoDownloadDomain, [.getRegion b.credentials.AccessKey b.name b.preferHttps]) ∧
    bucket.NewRangeReader env b key offset length =
      (.error .ErrNoDownloadDomain, [.getRegion b.credentials.AccessKey b.name b.preferHttps]) := by
  have hsign := fun expiry => signDownloadUrl_no_source env b key expiry region hdom hreg hsrc
  have hreq : ∀ method byteRange, bucket.createDownloadRequest env b method key byteRange
      threeMinutes = (.error .ErrNoDownloadDomain,
        [.getRegion b.credentials.AccessKey b.name b.preferHttps]) := by
    intro method byteRange
    unfold bucket.createDownloadRequest
    rw [hsign]
  refine ⟨?_, ?_, ?_, ?_, ?_, ?_⟩
  · rw [hsign]; rfl
  · rw [hsign]
  · simp [bucket.SignedURL, hsign, urlResult]
  · simp [bucket.SignedURL, hsign]
  · unfold bucket.Attributes
    rw [hreq]
  · unfold bucket.NewRangeReader
    rw [hreq]

/-- C16, at the bucket of the tests with a resolver that reports no source host. -/
theorem no_source_endpoint_is_an_error_witness :
    urlResult (bucket.signDownloadUrl (testEnvNoSource (.ok (testResponse 200 .NoBody)))
        testBucket "existed-file" threeMinutes).1 = ("", some .ErrNoDownloadDomain) ∧
    bucket.Attributes (testEnvNoSource (.ok (testResponse 200 .NoBody))) testBucket
        "existed-file" =
      (.error .ErrNoDownloadDomain, [.getRegion "ak" "bucket" false]) :=
  ⟨(no_source_endpoint_is_an_error (testEnvNoSource (.ok (testResponse 200 .NoBody))) testBucket
      "existed-file" threeMinutes 0 0 { IoSrcHost := "" } rfl rfl rfl).1,
   (no_source_endpoint_is_an_error (testEnvNoSource (.ok (testResponse 200 .NoBody))) testBucket
      "existed-file" threeMinutes 0 0 { IoSrcHost := "" } rfl rfl rfl).2.2.2.2.1⟩

/-- C17: for every bucket, key and expiry, whatever the collaborators: `SignedURL` with method
PUT returns the empty URL and `ErrNotSupportedSignedPutUrl`, with method DELETE the empty URL
and `ErrNotSupportedSignedDeleteUrl`, in both cases without calling the region resolver or
anything else; with method GET it returns exactly the result of `signDownloadUrl(key,
expiry)`. -/
theorem signed_url_by_method (env : Env) (b : bucket) (key : String) (expiry : Int) :
    bucket.SignedURL env b key { Method := "PUT", Expiry := expiry } =
      (.error .ErrNotSupportedSignedPutUrl, []) ∧
    urlResult (bucket.SignedURL env b key { Method := "PUT", Expiry := expiry }).1 =
      ("", some .ErrNotSupportedSignedPutUrl) ∧
    bucket.SignedURL env b key { Method := "DELETE", Expiry := expiry } =
      (.error .ErrNotSupportedSignedDeleteUrl, []) ∧
    urlResult (bucket.SignedURL env b key { Method := "DELETE", Expiry := expiry }).1 =
      ("", some .ErrNotSupportedSignedDeleteUrl) ∧
    bucket.SignedURL env b key { Method := "GET", Expiry := expiry } =
      bucket.signDownloadUrl env b key expiry := by
  refine ⟨?_, ?_, ?_, ?_, ?_⟩ <;> simp [bucket.SignedURL, urlResult]

/-! ## Opening a bucket -/

theorem createConfig_panics_of_override (query : GoMap (List String))
    (h : (GoMap.get? query "srcUpHost").isSome ∨ (GoMap.get? query "cdnUpHost").isSome ∨
      ValuesGet query "rsHost" ≠ "" ∨ ValuesGet query "rsfHost" ≠ "" ∨
      ValuesGet query "apiHost" ≠ "") :
    createConfig query = .nilDereference := by
  unfold createConfig
  cases h1 : GoMap.get? query "srcUpHost" with
  | some v => simp [assignField, Outcome.andThen]
  | none =>
    cases h2 : GoMap.get? query "cdnUpHost" with
    | some v => simp [assignField, Outcome.andThen]
    | none =>
      by_cases h3 : ValuesGet query "rsHost" = ""
      · by_cases h4 : ValuesGet query "rsfHost" = ""
        · by_cases h5 : ValuesGet query "apiHost" = ""
          · simp [h1, h2, h3, h4, h5] at h
          · simp [assignField, Outcome.andThen, h3, h4, h5]
        · simp [assignField, Outcome.andThen, h3, h4]
      · simp [assignField, Outcome.andThen, h3]

theorem createConfig_without_override (query : GoMap (List String))
    (h1 : GoMap.get? query "srcUpHost" = none) (h2 : GoMap.get? query "cdnUpHost" = none)
    (h3 : ValuesGet query "rsHost" = "") (h4 : ValuesGet query "rsfHost" = "")
    (h5 : ValuesGet query "apiHost" = "") :
    ∃ result, createConfig query = .returned result ∧ result.config.Region = none ∧
      result.err = none := by
  unfold createConfig
  simp [h1, h2, h3, h4, h5, Outcome.andThen]

/-- C18 (the code at the failing input): a query that supplies `srcUpHost`, `cdnUpHost`,
`rsHost`, `rsfHost` or `apiHost` makes `createConfig` panic with a nil pointer dereference at
the assignment to the field of `region`, a pointer that is never set; without any of them it
returns a config whose `Region` is unset. -/
theorem create_config_panics_on_region_override :
    (∀ hosts, createConfig [("srcUpHost", hosts)] = .nilDereference) ∧
    (∀ hosts, createConfig [("cdnUpHost", hosts)] = .nilDereference) ∧
    createConfig [("rsHost", ["rs.example.com"])] = .nilDereference ∧
    createConfig [("rsfHost", ["rsf.example.com"])] = .nilDereference ∧
    createConfig [("apiHost", ["api.example.com"])] = .nilDereference ∧
    createConfig [("useHttps", [""]), ("rsHost", ["rs.example.com"])] = .nilDereference ∧
    createConfig [("useHttps", [""])] =
      .returned { config := { UseHTTPS := true, UseCdnDomains := true, Region := none }
                  err := none
                  ucHosts := none } := by
  refine ⟨fun _ => rfl, fun _ => rfl, ?_, ?_, ?_, ?_, ?_⟩ <;> rfl

end kodoblob
